import Mathlib

/-!
Verification of the metadata-reporting core of DC3-MWCP (`mwcp/reporter.py`).

The development shallowly embeds `Reporter.add_metadata` and its helper
mergers (`_add_metatadata_listofstrings`, `_add_metadata_listofstringtuples`,
`_add_metadata_dictofstrings`), `Reporter.output_file` with its
collision-renaming loop, and `Reporter.get_output_text` with its helpers
(`format_list`, `get_printable_key_value`).

Python dictionaries are modelled as insertion-ordered association lists
(matching CPython dict semantics: assignment to an existing key keeps its
position, a new key is appended at the end).  Python exceptions are modelled
by threading an `Option Exc` next to the state; attribute mutations performed
before an exception was raised persist, exactly as in Python.  Filesystem
side effects (the disk write at the end of `output_file`, the managed temp
directory) are outside the model.
-/

set_option maxHeartbeats 1000000

/-- Log levels of the `logging` calls appearing in `reporter.py`
(`logger.info`, `logger.warn`, `logger.error`; `logger.exception` logs at
error level). -/
inductive LogLevel where
  | info
  | warn
  | error
deriving DecidableEq, Repr

/-- Python values handled by `_add_metadata_dictofstrings` entries: a value
is either a `str` (handled) or some non-string, non-subscriptable object
such as an `int` (modelled abstractly as `other`; indexing it raises
`TypeError`, see `dictMergeEntries`). -/
inductive PyObj where
  | str (s : String)
  | other
deriving DecidableEq, Repr

/-- The value argument of `add_metadata`: `None`, a unicode string, a
list/tuple of strings, or a mapping (for `dictofstrings` fields). -/
inductive Value where
  | vNone
  | vStr (s : String)
  | vList (l : List String)
  | vDict (m : List (String × PyObj))
deriving DecidableEq, Repr

/-- A sub-entry of a `dictofstrings` field: a single string, or the list a
scalar is converted to on the first collision (`_add_metadata_dictofstrings`). -/
inductive SubVal where
  | one (s : String)
  | many (l : List String)
deriving DecidableEq, Repr

/-- A value stored in `Reporter.metadata`: a list of strings
(`listofstrings` fields), a list of string tuples (`listofstringtuples`
fields), or a string map (`dictofstrings` fields). -/
inductive MVal where
  | strs (l : List String)
  | tups (l : List (List String))
  | smap (m : List (String × SubVal))
deriving DecidableEq, Repr

/-- `Reporter.metadata`: a Python dict from field name to stored value,
modelled as an insertion-ordered association list with unique keys. -/
abbrev Store := List (String × MVal)

/-- The reporter state touched by `add_metadata`: the metadata dict plus the
stream of log records emitted through `logger`. -/
structure RState where
  metadata : Store
  log : List (LogLevel × String)
deriving DecidableEq, Repr

/-- Python exceptions that can be raised inside the intake code paths:
`KeyError` (unknown field name), `TypeError` (bad dynamic type, e.g.
subscripting an `int`), `IndexError` (tuple too short), `ValueError`
(`int()` on a non-numeric string). -/
inductive Exc where
  | keyError (k : String)
  | typeError
  | indexError
  | valueError
  | assertionError
deriving DecidableEq, Repr

deriving instance DecidableEq for Except

/-- Result of one Python statement block: the state afterwards plus the
exception it raised, if any (state mutations made before the raise persist). -/
abbrev RRes := RState × Option Exc

/-- Sequencing of two blocks with Python exception propagation: if the first
block raised, the second does not run. -/
def rseq (r : RRes) (f : RState → RRes) : RRes :=
  match r with
  | (st, none) => f st
  | (st, some e) => (st, some e)

/-- Dict lookup `d[k]` / `k in d`, returning `none` when absent. -/
def mfind (k : String) : Store → Option MVal
  | [] => none
  | (k', v) :: t => if k' = k then some v else mfind k t

/-- Dict assignment `d[k] = v`: replace in place if the key exists (CPython
keeps the insertion position), otherwise append at the end. -/
def dictSet (k : String) (v : MVal) : Store → Store
  | [] => [(k, v)]
  | (k', v') :: t => if k' = k then (k', v) :: t else (k', v') :: dictSet k v t

/-- Lookup in the sub-dictionary of a `dictofstrings` entry. -/
def sfind (k : String) : List (String × SubVal) → Option SubVal
  | [] => none
  | (k', v) :: t => if k' = k then some v else sfind k t

/-- Assignment in the sub-dictionary of a `dictofstrings` entry. -/
def sset (k : String) (v : SubVal) : List (String × SubVal) → List (String × SubVal)
  | [] => [(k, v)]
  | (k', v') :: t => if k' = k then (k', v) :: t else (k', v') :: sset k v t

/-- Emit a log record. -/
def logWith (lv : LogLevel) (st : RState) (msg : String) : RState :=
  { st with log := st.log ++ [(lv, msg)] }

/-- `logger.info`. -/
def logInfo (st : RState) (msg : String) : RState := logWith .info st msg

/-- `logger.warn`. -/
def logWarn (st : RState) (msg : String) : RState := logWith .warn st msg

/-- `logger.error` (also `logger.exception`, which logs at error level). -/
def logErr (st : RState) (msg : String) : RState := logWith .error st msg

/-- Modelled from the spec: `convert_to_unicode` lives in
`mwcp.utils.stringutils`, which is not under `src/`.  Per the spec all values
are normalized to unicode; Lean strings are already unicode, so the
normalization is the identity on strings. -/
def convertToUnicode (s : String) : String := s

/-- The three field shapes of `fields.json` (`type` values). -/
inductive FType where
  | listofstrings
  | listofstringtuples
  | dictofstrings
deriving DecidableEq, Repr

/-- Modelled from the spec: the Field Schema is loaded from `fields.json`
(`config.FIELDS_PATH`), which is not under `src/`.  The table lists the
fields named by the spec (section 2/4.3, the standard-order lists) together
with the shape each of them must have for `reporter.py` to behave as the
spec describes (scalar fields dispatch to the `listofstrings` merger, tuple
fields to `listofstringtuples`, `other` to `dictofstrings`). -/
def fieldsTable : List (String × FType) :=
  [("inputfilename", .listofstrings), ("md5", .listofstrings),
   ("sha1", .listofstrings), ("sha256", .listofstrings),
   ("compiletime", .listofstrings),
   ("c2_url", .listofstrings), ("url", .listofstrings),
   ("urlpath", .listofstrings),
   ("c2_address", .listofstrings), ("proxy_address", .listofstrings),
   ("address", .listofstrings),
   ("proxy_username", .listofstrings), ("proxy_password", .listofstrings),
   ("proxyport", .listofstrings),
   ("username", .listofstrings), ("password", .listofstrings),
   ("missionid", .listofstrings), ("useragent", .listofstrings),
   ("interval", .listofstrings), ("version", .listofstrings),
   ("mutex", .listofstrings),
   ("servicename", .listofstrings), ("servicedisplayname", .listofstrings),
   ("servicedescription", .listofstrings), ("serviceimage", .listofstrings),
   ("servicedll", .listofstrings), ("injectionprocess", .listofstrings),
   ("filepath", .listofstrings), ("directory", .listofstrings),
   ("filename", .listofstrings),
   ("registrykey", .listofstrings), ("registryvalue", .listofstrings),
   ("key", .listofstrings),
   ("registrypath", .listofstrings), ("registrydata", .listofstrings),
   ("ssl_cer_sha1", .listofstrings), ("guid", .listofstrings),
   ("debug", .listofstrings),
   ("c2_socketaddress", .listofstringtuples), ("proxy", .listofstringtuples),
   ("proxy_socketaddress", .listofstringtuples),
   ("socketaddress", .listofstringtuples),
   ("port", .listofstringtuples), ("listenport", .listofstringtuples),
   ("credential", .listofstringtuples), ("service", .listofstringtuples),
   ("registrykeyvalue", .listofstringtuples),
   ("registrypathdata", .listofstringtuples),
   ("ftp", .listofstringtuples), ("rsa_public_key", .listofstringtuples),
   ("rsa_private_key", .listofstringtuples),
   ("outputfile", .listofstringtuples),
   ("other", .dictofstrings)]

/-- Schema lookup `self.fields[key]['type']` (`none` models `key not in
self.fields`). -/
def schemaType (k : String) : Option FType :=
  (fieldsTable.find? (fun p => p.1 = k)).map (fun p => p.2)

/-- The check `value is None or all(not _value for _value in value)` at the
top of `add_metadata`.  Iterating a Python string yields its characters
(every one truthy), iterating a list yields its elements, iterating a dict
yields its KEYS — so for a dict the check looks at the keys, not the values. -/
def isEmptyValue : Value → Bool
  | .vNone => true
  | .vStr s => s == ""
  | .vList l => l.all (fun x => x == "")
  | .vDict m => m.all (fun p => p.1 == "")

/-- Python iteration over the `values` argument of
`_add_metadata_listofstringtuples` (`tuple(values)` / `map(..., values)`):
a list yields its elements, a string yields its one-character substrings, a
dict yields its keys, `None` is not iterable (`TypeError`). -/
def iterStrings : Value → Except Exc (List String)
  | .vStr s => .ok (s.data.map (fun c => String.mk [c]))
  | .vList l => .ok l
  | .vDict m => .ok (m.map (fun p => p.1))
  | .vNone => .error .typeError

/-- Total list indexing used where the source guards the length before
subscripting (out-of-range access in unguarded positions is modelled
explicitly with `Exc.indexError` at its use sites). -/
def nth (l : List String) (i : Nat) : String := (l.get? i).getD ""

/-- True when `sub` is a prefix of `l` (character lists). -/
def isPre (sub l : List Char) : Bool :=
  match sub, l with
  | [], _ => true
  | _ :: _, [] => false
  | a :: as, b :: bs => a == b && isPre as bs

/-- First index at which `sub` occurs in `l` (Python `str.find` /
the `in` operator), `none` when absent. -/
def findSubIdx (sub : List Char) : List Char → Option Nat
  | [] => if isPre sub [] then some 0 else none
  | c :: rest =>
    if isPre sub (c :: rest) then some 0
    else (findSubIdx sub rest).map (fun i => i + 1)

/-- Python `s.partition(sep)` for a non-empty separator: split at the first
occurrence, returning (before, separator-found?, after). -/
def partitionSub (sep l : List Char) : List Char × Bool × List Char :=
  match findSubIdx sep l with
  | some i => (l.take i, true, l.drop (i + sep.length))
  | none => (l, false, [])

/-- Python `address.rstrip(': ')`: drop trailing colons and spaces. -/
def rstripColonSpace (l : List Char) : List Char :=
  (l.reverse.dropWhile (fun c => c == ':' || c == ' ')).reverse

/-- Character class of the scheme part of `Reporter.URL_RE`
(`[a-z\.-]`). -/
def urlClassChar (c : Char) : Bool :=
  (('a' ≤ c && c ≤ 'z') || c == '.' || c == '-')

/-- One anchored attempt of `Reporter.URL_RE`
(`[a-z\.-]{1,40}://(?P<address>\[?[^/]+\]?)(?P<path>/[^?]+)?`) at the start
of `l`.  The scheme run is maximal (the class excludes `:`), so the attempt
succeeds exactly when the leading class run has length 1..40 and is followed
by `://`; the `address` group then equals the maximal following run of
non-`/` characters (at least one), and the optional `path` group is a `/`
followed by at least one non-`?` character. -/
def urlMatchAt (l : List Char) : Option (List Char × Option (List Char)) :=
  let run := l.takeWhile urlClassChar
  if run.length = 0 || 40 < run.length then none
  else if isPre [':', '/', '/'] (l.drop run.length) then
    let rest := l.drop (run.length + 3)
    let addr := rest.takeWhile (fun c => !(c == '/'))
    if addr.length = 0 then none
    else
      let rest2 := rest.drop addr.length
      let path :=
        match rest2 with
        | '/' :: t =>
          let p := t.takeWhile (fun c => !(c == '?'))
          if p.length = 0 then none else some ('/' :: p)
        | _ => none
      some (addr, path)
  else none

/-- `Reporter.URL_RE.search(value)`: the leftmost position where the pattern
matches, returning the `address` and `path` groups. -/
def urlSearch : List Char → Option (List Char × Option (List Char))
  | [] => urlMatchAt []
  | c :: rest =>
    match urlMatchAt (c :: rest) with
    | some r => some r
    | none => urlSearch rest

/-- `Reporter.SHA1_RE.match(value)` (`[0-9a-fA-F]{40}`, anchored at the
start, prefix match). -/
def sha1Match (s : String) : Bool :=
  40 ≤ s.data.length &&
    (s.data.take 40).all (fun c =>
      (('0' ≤ c && c ≤ '9') || ('a' ≤ c && c ≤ 'f') || ('A' ≤ c && c ≤ 'F')))

/-- `Reporter.PORT_RE.search(values[0])` is truthy iff the string contains a
digit (`[0-9]{1,5}`: any single digit already matches). -/
def hasDigit (s : String) : Bool := s.data.any (fun c => c.isDigit)

/-- Python `int(s)`: optional surrounding spaces, an optional sign, then at
least one digit; anything else raises `ValueError` (`none`). -/
def parsePyInt (s : String) : Option Int :=
  let l := (s.data.dropWhile (fun c => c == ' ')).reverse.dropWhile
    (fun c => c == ' ') |>.reverse
  let digitsVal : List Char → Option Int := fun ds =>
    if ds.length = 0 || !(ds.all (fun c => c.isDigit)) then none
    else some (Int.ofNat (ds.foldl (fun n c => n * 10 + (c.toNat - 48)) 0))
  match l with
  | '-' :: ds => (digitsVal ds).map (fun n => -n)
  | '+' :: ds => digitsVal ds
  | ds => digitsVal ds

/-- Character test for the `ntpath` separators `\` and `/`. -/
def isNtSep (c : Char) : Bool := c == '\\' || c == '/'

/-- Python `ntpath.splitdrive` restricted to drive-letter paths (UNC paths
are outside the model): a second character `:` makes the first two
characters the drive. -/
def ntSplitDrive (l : List Char) : List Char × List Char :=
  match l with
  | a :: ':' :: rest => ([a, ':'], rest)
  | _ => ([], l)

/-- Python `ntpath.split` (drive-letter paths): split after the last `\` or
`/`; trailing separators of the head are stripped unless the head is all
separators. -/
def ntSplit (s : String) : String × String :=
  let (d, r) := ntSplitDrive s.data
  let rev := r.reverse
  let tail := (rev.takeWhile (fun c => !(isNtSep c))).reverse
  let head := (rev.dropWhile (fun c => !(isNtSep c))).reverse
  let stripped := (head.reverse.dropWhile isNtSep).reverse
  let head2 := if stripped.length = 0 then head else stripped
  (String.mk (d ++ head2), String.mk tail)

/-- `ntpath.basename` as called by the `filepath` cascade rule. -/
def ntBasename (s : String) : String := (ntSplit s).2

/-- `ntpath.dirname` as called by the `filepath` cascade rule. -/
def ntDirname (s : String) : String := (ntSplit s).1

/-- The characters of `".exe"` used by the `serviceimage` rule. -/
def exeChars : List Char := ['.', 'e', 'x', 'e']

/-- The unconditional storage step of `_add_metatadata_listofstrings`
(lines 166-169): `setdefault(key, [])`, then append unless the value is
already present — except for `debug`, which always appends.  An existing
entry of a different shape would make `append`/`in` fail in Python
(modelled as `TypeError`; unreachable for stores built by the intake). -/
def losStore (key value : String) (st : RState) : RRes :=
  match mfind key st.metadata with
  | none => ({ st with metadata := dictSet key (.strs [value]) st.metadata }, none)
  | some (.strs obj) =>
    if key = "debug" ∨ ¬ value ∈ obj then
      ({ st with metadata := dictSet key (.strs (obj ++ [value])) st.metadata }, none)
    else (st, none)
  | some _ => (st, some .typeError)

/-- The `url`/`c2_url` parsing block of `_add_metatadata_listofstrings`
(lines 201-234).  The source logs `Invalid URL {!r} found ':' at end
without a port.`; the model paraphrases the quoted colon to keep the
message a plain string. -/
def urlBlock (cb : String → Value → RState → RRes) (key value : String)
    (st : RState) : RRes :=
  match urlSearch value.data with
  | none => (logErr st ("Error parsing as url: " ++ value), none)
  | some (addr, path) =>
    let stepPath : RState → RRes := fun st =>
      match path with
      | some p => cb "urlpath" (.vStr (String.mk p)) st
      | none => (st, none)
    let stepAddr : RState → RRes := fun st =>
      if addr.length = 0 then (st, none)
      else
        let address := rstripColonSpace addr
        let dfp :=
          match address with
          | '[' :: rest => partitionSub [']', ':'] rest
          | _ => partitionSub [':'] address
        let domain := dfp.1
        let found := dfp.2.1
        let port := dfp.2.2
        if found then
          if port.length ≠ 0 then
            if key = "c2_url" then
              cb "c2_socketaddress"
                (.vList [String.mk domain, String.mk port, "tcp"]) st
            else
              cb "socketaddress"
                (.vList [String.mk domain, String.mk port, "tcp"]) st
          else
            (logErr st ("Invalid URL " ++ String.mk address ++
              " found colon at end without a port."), none)
        else
          if key = "c2_url" then cb "c2_address" (.vStr (String.mk address)) st
          else cb "address" (.vStr (String.mk address)) st
    rseq (stepPath st) stepAddr

/-- The derivation cascade of `_add_metatadata_listofstrings`
(lines 171-234), run after the storage step; `cb` is the recursive
`self.add_metadata`. -/
def losCascade (cb : String → Value → RState → RRes) (key value : String)
    (st : RState) : RRes :=
  let s1 : RState → RRes := fun st =>
    if key = "filepath" then
      rseq (cb "filename" (.vStr (ntBasename value)) st)
        (fun st => cb "directory" (.vStr (ntDirname value)) st)
    else (st, none)
  let s2 : RState → RRes := fun st =>
    if key = "c2_url" then cb "url" (.vStr value) st else (st, none)
  let s3 : RState → RRes := fun st =>
    if key = "c2_address" ∨ key = "proxy_address" then
      cb "address" (.vStr value) st
    else (st, none)
  let s4 : RState → RRes := fun st =>
    if key = "serviceimage" then
      match findSubIdx exeChars value.data with
      | some i => cb "filepath" (.vStr (String.mk (value.data.take (i + 4)))) st
      | none => (st, none)
    else (st, none)
  let s5 : RState → RRes := fun st =>
    if key = "servicedll" then cb "filepath" (.vStr value) st else (st, none)
  let s6 : RState → RRes := fun st =>
    if key = "ssl_cer_sha1" then
      (if sha1Match value then st
       else logErr st ("Invalid SHA1 hash found: " ++ value), none)
    else (st, none)
  let s7 : RState → RRes := fun st =>
    if key = "url" ∨ key = "c2_url" then urlBlock cb key value st
    else (st, none)
  rseq (s1 st) (fun st => rseq (s2 st) (fun st => rseq (s3 st) (fun st =>
    rseq (s4 st) (fun st => rseq (s5 st) (fun st => rseq (s6 st) s7)))))

/-- `Reporter._add_metatadata_listofstrings` (lines 162-234).  For the
scalar merger the value must be a string; the source would hand other
shapes to `convert_to_unicode`, which is outside the model (`TypeError`);
no intake path reaches that case (empty values are filtered earlier). -/
def addMetadataListofstrings (cb : String → Value → RState → RRes)
    (key : String) (value : Value) (st : RState) : RRes :=
  match value with
  | .vStr rawv =>
    if rawv = "" then
      (logInfo st ("no values provided for " ++ key ++ ", skipping"), none)
    else
      let v := convertToUnicode rawv
      rseq (losStore key v st) (fun st => losCascade cb key v st)
  | _ => (st, some .typeError)

/-- The storage step of `_add_metadata_listofstringtuples` (lines 247-249):
`setdefault(key, [])`, append unless the identical tuple is present. -/
def tupStore (key : String) (values : List String) (st : RState) : RRes :=
  match mfind key st.metadata with
  | none => ({ st with metadata := dictSet key (.tups [values]) st.metadata }, none)
  | some (.tups obj) =>
    if ¬ values ∈ obj then
      ({ st with metadata := dictSet key (.tups (obj ++ [values])) st.metadata }, none)
    else (st, none)
  | some _ => (st, some .typeError)

/-- The `zip(subfields, values)` loop of the subfield decomposition
(lines 258-261): add each non-empty component under its subfield name. -/
def zipAdds (cb : String → Value → RState → RRes) :
    List String → List String → RState → RRes
  | [], _, st => (st, none)
  | _ :: _, [], st => (st, none)
  | sf :: sfs, v :: vs, st =>
    rseq (if v = "" then (st, none) else cb sf (.vStr v) st)
      (fun st => zipAdds cb sfs vs st)

/-- `subfield_map` of `_add_metadata_listofstringtuples` (lines 252-256). -/
def subfieldMap (key : String) : Option (List String) :=
  if key = "registrypathdata" then some ["registrypath", "registrydata"]
  else if key = "service" then
    some ["servicename", "servicedisplayname", "servicedescription",
      "serviceimage", "servicedll"]
  else if key = "credential" then some ["username", "password"]
  else none

/-- The validation and derivation blocks of
`_add_metadata_listofstringtuples` (lines 251-322), run in source order
after the storage step on the padded, normalized tuple; `cb` is the
recursive `self.add_metadata`. -/
def tupCascade (cb : String → Value → RState → RRes)
    (key : String) (values : List String) (st : RState) : RRes :=
  let bSub : RState → RRes := fun st =>
      match subfieldMap key with
      | some subfields =>
        rseq (zipAdds cb subfields values st) (fun st =>
          (if values.length ≠ subfields.length then
            logWarn st ("Expected " ++ toString subfields.length ++
              " values in type " ++ key ++ ", received " ++
              toString values.length)
          else st, none))
      | none => (st, none)
    let bC2sa : RState → RRes := fun st =>
      if key = "c2_socketaddress" then
        rseq (cb "socketaddress" (.vList values) st) (fun st =>
          match values with
          | [] => (st, some .indexError)
          | v0 :: _ => cb "c2_address" (.vStr v0) st)
      else (st, none)
    let bPsa : RState → RRes := fun st =>
      if key = "proxy_socketaddress" then
        rseq (cb "socketaddress" (.vList values) st) (fun st =>
          match values with
          | [] => (st, some .indexError)
          | v0 :: _ => cb "proxy_address" (.vStr v0) st)
      else (st, none)
    let bSa : RState → RRes := fun st =>
      if key = "socketaddress" then
        let st :=
          if values.length ≠ 3 then
            logWarn st ("Expected three values in type socketaddress, received "
              ++ toString values.length)
          else st
        match values with
        | [] => (st, some .indexError)
        | v0 :: rest =>
          rseq (cb "address" (.vStr v0) st) (fun st =>
            cb "port" (.vList rest) st)
      else (st, none)
    let bPort : RState → RRes := fun st =>
      if key = "port" ∨ key = "listenport" then
        let st :=
          if values.length ≠ 2 then
            logWarn st ("Expected two values in type " ++ key ++ ", received "
              ++ toString values.length)
          else st
        match values with
        | [] => (st, some .indexError)
        | v0 :: _ =>
          let r1 : RRes :=
            if hasDigit v0 then
              match parsePyInt v0 with
              | none => (st, some .valueError)
              | some portnum =>
                (if portnum < 0 ∨ 65535 < portnum then
                  logWarn st "Expected port to be number between 0 and 65535"
                else st, none)
            else
              (logWarn st "Expected port to be number between 0 and 65535", none)
          rseq r1 (fun st =>
            (if 2 ≤ values.length then
              if ¬ nth values 1 ∈ ["tcp", "udp", "icmp"] then
                logWarn st "Expected port type to be tcp or udp (or icmp)"
              else st
            else st, none))
      else (st, none)
    let bProxy : RState → RRes := fun st =>
      if key = "proxy" then
        let st :=
          if values.length ≠ 5 then
            logWarn st ("Expected 5 values in type " ++ key ++ ", received "
              ++ toString values.length)
          else st
        rseq (cb "credential" (.vList (values.take 2)) st) (fun st =>
          match values.drop 2 with
          | [v2] => cb "proxy_address" (.vStr v2) st
          | rest => cb "proxy_socketaddress" (.vList rest) st)
      else (st, none)
    let bFtp : RState → RRes := fun st =>
      if key = "ftp" then
        let st :=
          if values.length ≠ 3 then
            logWarn st ("Expected 3 values in type " ++ key ++ ", received "
              ++ toString values.length)
          else st
        rseq (cb "credential" (.vList (values.take 2)) st) (fun st =>
          if 3 ≤ values.length then cb "url" (.vStr (nth values 2)) st
          else (st, none))
      else (st, none)
    let bRsaPub : RState → RRes := fun st =>
      if key = "rsa_public_key" then
        (if values.length ≠ 2 then
          logWarn st ("Expected 3 values in type " ++ key ++ ", received "
            ++ toString values.length)
        else st, none)
      else (st, none)
    let bRsaPriv : RState → RRes := fun st =>
      if key = "rsa_private_key" then
        (if values.length ≠ 8 then
          logWarn st ("Expected 8 values in type " ++ key ++ ", received "
            ++ toString values.length)
        else st, none)
      else (st, none)
  rseq (bSub st) (fun st => rseq (bC2sa st) (fun st => rseq (bPsa st)
    (fun st => rseq (bSa st) (fun st => rseq (bPort st) (fun st =>
      rseq (bProxy st) (fun st => rseq (bFtp st) (fun st =>
        rseq (bRsaPub st) bRsaPriv)))))))

/-- `Reporter._add_metadata_listofstringtuples` (lines 236-322): pad the
declared short shapes (`proxy` to 5, `rsa_private_key` to 8), normalize,
store with deduplication, then run the tuple cascade. -/
def addMetadataListofstringtuples (cb : String → Value → RState → RRes)
    (key : String) (value : Value) (st : RState) : RRes :=
  match iterStrings value with
  | .error e => (st, some e)
  | .ok vs0 =>
    let vs1 :=
      if key = "proxy" then vs0 ++ List.replicate (5 - vs0.length) ""
      else if key = "rsa_private_key" then vs0 ++ List.replicate (8 - vs0.length) ""
      else vs0
    let values := vs1.map convertToUnicode
    rseq (tupStore key values st) (fun st => tupCascade cb key values st)

/-- The entry loop of `Reporter._add_metadata_dictofstrings`
(lines 324-346).  For a non-string sub-value the source builds the warning
text with `str(type(subvalue[subkey]))`: subscripting a non-subscriptable
value raises `TypeError` while evaluating the arguments, so the warning is
never emitted and the remaining entries are not processed. -/
def dictMergeEntries (key : String) :
    List (String × PyObj) → RState → RRes
  | [], st => (st, none)
  | (subkey, subvalue) :: rest, st =>
    match subvalue with
    | .str sv0 =>
      let subkeyu := convertToUnicode subkey
      let sv := convertToUnicode sv0
      match mfind key st.metadata with
      | some (.smap obj) =>
        let newm :=
          match sfind subkeyu obj with
          | some (.many l) => if ¬ sv ∈ l then sset subkeyu (.many (l ++ [sv])) obj else obj
          | some (.one ex) => if sv ≠ ex then sset subkeyu (.many [ex, sv]) obj else obj
          | none => sset subkeyu (.one sv) obj
        dictMergeEntries key rest
          { st with metadata := dictSet key (.smap newm) st.metadata }
      | none =>
        let newm := sset subkeyu (.one sv) ([] : List (String × SubVal))
        dictMergeEntries key rest
          { st with metadata := dictSet key (.smap newm) st.metadata }
      | some _ => (st, some .typeError)
    | .other => (st, some .typeError)

/-- `Reporter._add_metadata_dictofstrings` (lines 324-346); a non-mapping
value has no `.items()` (`TypeError`). -/
def addMetadataDictofstrings (key : String) (value : Value) (st : RState) : RRes :=
  match value with
  | .vDict m => dictMergeEntries key m st
  | _ => (st, some .typeError)

/-- `Reporter.add_metadata` (lines 348-379): the empty-value no-op check
(logged with `logger.warn`), then the schema check raising `KeyError` for
unknown fields, then the shape dispatch wrapped in `try/except Exception`,
which logs any exception (`logger.exception`) and absorbs it.  The `fuel`
argument bounds the recursion depth of the derivation cascade; the cascade
of the source has depth at most 4, so any fuel of at least 8 is exact
(see the termination discussion of the cascade in the spec). -/
def addMetadata : Nat → String → Value → RState → RRes
  | 0, _, _, st => (st, none)
  | n + 1, key, value, st =>
    let keyu := convertToUnicode key
    if isEmptyValue value then
      (logWarn st ("no values provided for " ++ key ++ ", skipping"), none)
    else
      match schemaType keyu with
      | none => (st, some (.keyError keyu))
      | some ft =>
        let r : RRes :=
          match ft with
          | .listofstrings => addMetadataListofstrings (addMetadata n) keyu value st
          | .listofstringtuples =>
            addMetadataListofstringtuples (addMetadata n) keyu value st
          | .dictofstrings => addMetadataDictofstrings keyu value st
        match r with
        | (st1, none) => (st1, none)
        | (st1, some _) =>
          (logErr st1 ("Error adding metadata for key: " ++ keyu), none)

/-- An entry of `Reporter.outputfiles`: the data bytes, description and md5
hex digest (the `path` key set by the on-disk write is outside the model). -/
structure OutRecord where
  data : List Nat
  description : String
  md5 : String
deriving DecidableEq, Repr

/-- `Reporter.outputfiles`: dict from stored filename to record. -/
abbrev OutTable := List (String × OutRecord)

/-- Dict lookup in the output-file table. -/
def ofind (k : String) : OutTable → Option OutRecord
  | [] => none
  | (k', v) :: t => if k' = k then some v else ofind k t

/-- Dict assignment in the output-file table. -/
def oset (k : String) (v : OutRecord) : OutTable → OutTable
  | [] => [(k, v)]
  | (k', v') :: t => if k' = k then (k', v) :: t else (k', v') :: oset k v t

/-- Exit statuses of the collision-renaming `while` loop of
`Reporter.output_file` (lines 434-440): a non-colliding name was found, a
same-content duplicate was detected (with the name it collided under), the
`assert num_char <= 32` failed, or the modelling fuel ran out (shown
unreachable for fuel 32, see the termination theorem). -/
inductive RenameResult where
  | fresh (name : String)
  | duplicate (name : String)
  | assertFail
  | outOfFuel
deriving DecidableEq, Repr

/-- The collision-renaming `while` loop of `Reporter.output_file`: while the
candidate name exists, return early on equal hashes, assert
`num_char <= 32`, then retry with `orig + '_' + md5[:num_char]` and
`num_char + 1`.  `fuel` bounds the modelled iteration count; the loop
condition and the assert are checked before fuel is consumed (the fuel-zero
case repeats the terminal checks so that running out of fuel is
distinguishable from the three real outcomes). -/
def renameLoop (table : OutTable) (md5 orig : String) :
    Nat → String → Nat → RenameResult
  | 0, fn, numChar =>
    match ofind fn table with
    | none => .fresh fn
    | some r =>
      if md5 = r.md5 then .duplicate fn
      else if 32 < numChar then .assertFail
      else .outOfFuel
  | fuel + 1, fn, numChar =>
    match ofind fn table with
    | none => .fresh fn
    | some r =>
      if md5 = r.md5 then .duplicate fn
      else if 32 < numChar then .assertFail
      else
        renameLoop table md5 orig fuel (orig ++ "_" ++ md5.take numChar)
          (numChar + 1)

/-- The reporter state touched by `output_file`: metadata, log and the
output-file table. -/
structure OFState where
  metadata : Store
  log : List (LogLevel × String)
  outputfiles : OutTable
deriving DecidableEq, Repr

/-- `os.path.basename` on the posix host (everything after the last `/`). -/
def osBasename (s : String) : String :=
  String.mk ((s.data.reverse.takeWhile (fun c => !(c == '/'))).reverse)

/-- The character table of `base64.b64encode`. -/
def b64Char (n : Nat) : Char :=
  if n < 26 then Char.ofNat (65 + n)
  else if n < 52 then Char.ofNat (97 + (n - 26))
  else if n < 62 then Char.ofNat (48 + (n - 52))
  else if n = 62 then '+'
  else '/'

/-- `base64.b64encode` on a byte list. -/
def b64encode : List Nat → String
  | [] => ""
  | [a] =>
    String.mk [b64Char (a / 4), b64Char (a % 4 * 16), '=', '=']
  | [a, b] =>
    String.mk [b64Char (a / 4), b64Char (a % 4 * 16 + b / 16),
      b64Char (b % 16 * 4), '=']
  | a :: b :: c :: rest =>
    String.mk [b64Char (a / 4), b64Char (a % 4 * 16 + b / 16),
      b64Char (b % 16 * 4 + c / 64), b64Char (c % 64)] ++ b64encode rest

/-- `Reporter.output_file` (lines 417-473) up to the on-disk write (the
filesystem part, lines 454-473, is outside the model, as is the
`_disable_output_files` early return that only skips it).  `hash` stands
for `hashlib.md5(data).hexdigest()`; `b64flag` is
`Reporter._base64_output_files`.  The second component models the Python
return value: the function body has no `return <value>` statement, so every
path returns `None` (`Except.ok none`), except a propagating exception
(`AssertionError` from the loop assert, or an exception escaping
`add_metadata`, which can only be the `KeyError` for an unknown field). -/
def outputFile (hash : List Nat → String) (b64flag : Bool) (st : OFState)
    (data : List Nat) (filename : String) (description : String) :
    OFState × Except Exc (Option String) :=
  let md5 := hash data
  match renameLoop st.outputfiles md5 filename 32 filename 5 with
  | .duplicate name =>
    ({ st with log := st.log ++
        [(.info, "Ignoring duplicate output file: " ++ name)] }, .ok none)
  | .assertFail => (st, .error .assertionError)
  | .outOfFuel => (st, .error .assertionError)
  | .fresh newname =>
    let st :=
      if filename ≠ newname then
        { st with log := st.log ++
            [(.info, "Renamed " ++ filename ++ " to " ++ newname)] }
      else st
    let basename := osBasename newname
    let st :=
      { st with outputfiles := oset newname ⟨data, description, md5⟩ st.outputfiles }
    let mdval : Value :=
      if b64flag then .vList [basename, description, md5, b64encode data]
      else .vList [basename, description, md5]
    match addMetadata 8 "outputfile" mdval ⟨st.metadata, st.log⟩ with
    | (rst, none) =>
      ({ st with metadata := rst.metadata, log := rst.log }, .ok none)
    | (rst, some e) =>
      ({ st with metadata := rst.metadata, log := rst.log }, .error e)

/-- `INFO_FIELD_ORDER` (line 38). -/
def infoFieldOrder : List String :=
  ["inputfilename", "md5", "sha1", "sha256", "compiletime"]

/-- `STANDARD_FIELD_ORDER` (lines 39-49). -/
def standardFieldOrder : List String :=
  ["c2_url", "c2_socketaddress", "c2_address",
   "proxy", "proxy_credential", "proxy_username", "proxy_password",
   "proxy_socketaddress", "proxy_address", "proxyport",
   "url", "urlpath",
   "socketaddress", "address", "port", "listenport",
   "credential", "username", "password",
   "missionid", "useragent", "interval", "version", "mutex",
   "service", "servicename", "servicedisplayname", "servicedescription",
   "serviceimage", "servicedll", "injectionprocess",
   "filepath", "directory", "filename",
   "registrykeyvalue", "registrykey", "registryvalue", "key"]

/-- The `u"{:20} "` column formatting of `get_printable_key_value`:
left-justify the key to a minimum width of 20 characters. -/
def padKey (k : String) : String :=
  k ++ String.mk (List.replicate (20 - k.length) ' ')

/-- `Reporter.format_list` (lines 488-503). -/
def formatList (values : List String) (key : String) : String :=
  if key = "credential" ∧ values.length = 2 then
    nth values 0 ++ ":" ++ nth values 1
  else if key = "outputfile" ∧ 3 ≤ values.length then
    nth values 0 ++ " " ++ nth values 1
  else if (key = "port" ∨ key = "listenport") ∧ values.length = 2 then
    nth values 0 ++ "/" ++ nth values 1
  else if key = "registrykeyvalue" ∧ values.length = 2 then
    nth values 0 ++ "=" ++ nth values 1
  else if (key = "socketaddress" ∨ key = "c2_socketaddress" ∨
      key = "proxy_socketaddress") ∧ values.length = 3 then
    nth values 0 ++ ":" ++ nth values 1 ++ "/" ++ nth values 2
  else if key = "service" ∧ values.length = 5 then
    String.intercalate ", " values
  else
    String.intercalate " " values

/-- An element iterated over inside `get_printable_key_value`: a plain
string or a tuple (rendered through `format_list`). -/
inductive PItem where
  | istr (s : String)
  | ilist (l : List String)
deriving DecidableEq, Repr

/-- The `value` argument of `get_printable_key_value`: a plain string, or an
iterable of elements. -/
inductive PUnion where
  | ustr (s : String)
  | uitems (items : List PItem)
deriving DecidableEq, Repr

/-- The iteration of `get_printable_key_value` (lines 529-534): one line per
element, the key printed only on the first line (`printkey` becomes `""`),
`format_list` always receiving the original key. -/
def printableLines (key : String) : String → List PItem → String
  | _, [] => ""
  | printkey, item :: rest =>
    (padKey printkey ++ " " ++
      (match item with
       | .istr s => convertToUnicode s
       | .ilist l => formatList l key) ++ "\n") ++ printableLines key "" rest

/-- `Reporter.get_printable_key_value` (lines 522-536). -/
def getPrintableKeyValue (key : String) (value : PUnion) : String :=
  match value with
  | .ustr s => padKey key ++ " " ++ convertToUnicode s ++ "\n"
  | .uitems items => printableLines key key items

/-- A stored metadata value as seen by `get_printable_key_value`: a scalar
list iterates as strings, a tuple list iterates as tuples, and iterating a
dict would yield its keys (never reached for schema-typed stores). -/
def mvalToPrint : MVal → PUnion
  | .strs l => .uitems (l.map .istr)
  | .tups l => .uitems (l.map .ilist)
  | .smap m => .uitems (m.map (fun p => .istr p.1))

/-- A sub-entry of the `other` map as seen by `get_printable_key_value`. -/
def subToPrint : SubVal → PUnion
  | .one s => .ustr s
  | .many l => .uitems (l.map .istr)

/-- A fixed-order field loop of `get_output_text` (`for key in orderlist:
if key in self.metadata: ...`, lines 549-558). -/
def renderFields (md : Store) : List String → String
  | [] => ""
  | k :: rest =>
    (match mfind k md with
     | some v => getPrintableKeyValue k (mvalToPrint v)
     | none => "") ++ renderFields md rest

/-- The file-information section of `get_output_text` (lines 547-552),
printed only when `inputfilename` is present. -/
def infoSection (md : Store) : String :=
  if (mfind "inputfilename" md).isSome then
    "\n----File Information----\n\n" ++ renderFields md infoFieldOrder
  else ""

/-- The standard-field loop of `get_output_text` (lines 556-558). -/
def stdSection (md : Store) : String := renderFields md standardFieldOrder

/-- One candidate chunk of the leftover loop (lines 562-564): a stored field
not in the standard order, not `other`/`debug`/`outputfile`, and known to
the schema.  `self.metadata[key]` is the entry value itself since dict
keys are unique. -/
def leftoverChunk (kv : String × MVal) : Option String :=
  if ¬ kv.1 ∈ standardFieldOrder ∧ ¬ kv.1 ∈ ["other", "debug", "outputfile"]
      ∧ (schemaType kv.1).isSome then
    some (getPrintableKeyValue kv.1 (mvalToPrint kv.2))
  else none

/-- The leftover loop of `get_output_text` (lines 562-564), iterating the
store in insertion order. -/
def leftoverChunks (md : Store) : List String := md.filterMap leftoverChunk

/-- `sorted(list(self.metadata["other"]))`: the sub-keys in sorted order
(Python sorts strings by code point; `sorted` is equivalent to a stable
merge sort). -/
def sortedSubKeys (m : List (String × SubVal)) : List String :=
  (m.map Prod.fst).mergeSort (fun a b => decide (a ≤ b))

/-- The `other` section of `get_output_text` (lines 566-570).  A non-map
`other` entry would raise in Python (unreachable for schema-typed stores);
the model prints only the header there. -/
def otherSection (md : Store) : String :=
  match mfind "other" md with
  | some (.smap m) =>
    "\n----Other Metadata----\n\n" ++
      String.join ((sortedSubKeys m).map (fun k =>
        getPrintableKeyValue k
          (match sfind k m with
           | some sv => subToPrint sv
           | none => .ustr "")))
  | some _ => "\n----Other Metadata----\n\n"
  | none => ""

/-- The debug section of `get_output_text` (lines 573-576); a non-scalar
`debug` entry is unreachable for schema-typed stores. -/
def debugSection (md : Store) : String :=
  match mfind "debug" md with
  | some (.strs l) =>
    "\n----Debug----\n\n" ++ String.join (l.map (fun item => item ++ "\n"))
  | some _ => "\n----Debug----\n\n"
  | none => ""

/-- The output-files section of `get_output_text` (lines 578-582): each
stored tuple `(name, description, md5, ...)` is rendered as
`get_printable_key_value(value[0], (value[1], value[2]))`.  Tuples shorter
than 3 would raise `IndexError` in Python; the model reads `""` there
(entries written by `output_file` always have length 3 or 4). -/
def outputfileSection (md : Store) : String :=
  match mfind "outputfile" md with
  | some (.tups l) =>
    "\n----Output Files----\n\n" ++
      String.join (l.map (fun v =>
        getPrintableKeyValue (nth v 0)
          (.uitems [.istr (nth v 1), .istr (nth v 2)])))
  | some _ => "\n----Output Files----\n\n"
  | none => ""

/-- The errors section of `get_output_text` (lines 584-587). -/
def errorsSection (errors : List String) : String :=
  if errors.length ≠ 0 then
    "\n----Errors----\n\n" ++ String.join (errors.map (fun item => item ++ "\n"))
  else ""

/-- `Reporter.get_output_text` (lines 538-589): the sections concatenated in
source order. -/
def getOutputText (md : Store) (errors : List String) : String :=
  infoSection md ++ "\n----Standard Metadata----\n\n" ++ stdSection md ++
    String.join (leftoverChunks md) ++ otherSection md ++ debugSection md ++
    outputfileSection md ++ errorsSection errors

/-- A concrete stand-in for `hashlib.md5(...).hexdigest()` used to
instantiate theorems about `output_file` at executable inputs (the real
md5 is opaque to the verification; `outputFile` takes the digest function
as a parameter). -/
def demoHash (d : List Nat) : String :=
  String.mk (d.map (fun b => Char.ofNat (97 + b % 26)))

/-- Iterated reporting of the same `debug` message, starting from the empty
reporter state. -/
def repDebug (v : String) : Nat → RState
  | 0 => ⟨[], []⟩
  | n + 1 => (addMetadata 8 "debug" (.vStr v) (repDebug v n)).1

/-- The set of fields, other than the source field itself, that one intake
call on the source field can reach through the derivation cascade: the
directly derived fields of each cascade rule together with everything those
fields derive in turn.  Every rule maps a field to different lower-level
fields and no chain returns to its source, which is the termination
invariant stated by the spec. -/
def tailTouch (key : String) : List String :=
  if key = "filepath" then ["filename", "directory"]
  else if key = "c2_url" then
    ["url", "urlpath", "socketaddress", "address", "port",
     "c2_socketaddress", "c2_address"]
  else if key = "url" then ["urlpath", "socketaddress", "address", "port"]
  else if key = "c2_address" ∨ key = "proxy_address" then ["address"]
  else if key = "serviceimage" ∨ key = "servicedll" then
    ["filepath", "filename", "directory"]
  else if key = "c2_socketaddress" then
    ["socketaddress", "address", "port", "c2_address"]
  else if key = "proxy_socketaddress" then
    ["socketaddress", "address", "port", "proxy_address"]
  else if key = "socketaddress" then ["address", "port"]
  else if key = "proxy" then
    ["credential", "username", "password", "proxy_socketaddress",
     "socketaddress", "address", "port", "proxy_address"]
  else if key = "credential" then ["username", "password"]
  else if key = "service" then
    ["servicename", "servicedisplayname", "servicedescription",
     "serviceimage", "servicedll", "filepath", "filename", "directory"]
  else if key = "ftp" then
    ["credential", "username", "password", "url", "urlpath",
     "socketaddress", "address", "port"]
  else if key = "registrypathdata" then ["registrypath", "registrydata"]
  else []

/-- All fields an intake call on `key` can modify: the field itself plus its
cascade closure. -/
def touch (key : String) : List String := key :: tailTouch key

/-- A result leaves the entry of field `k` unchanged. -/
def Keeps (k : String) (st : RState) (r : RRes) : Prop :=
  mfind k r.1.metadata = mfind k st.metadata

theorem mfind_dictSet_self (k : String) (v : MVal) (md : Store) :
    mfind k (dictSet k v md) = some v := by
  induction md with
  | nil => simp [mfind, dictSet]
  | cons p t ih =>
    by_cases h : p.1 = k
    · simp [mfind, dictSet, h]
    · simp [mfind, dictSet, h, ih]

theorem mfind_dictSet_ne (k k' : String) (v : MVal) (md : Store) (h : k' ≠ k) :
    mfind k (dictSet k' v md) = mfind k md := by
  induction md with
  | nil => simp [mfind, dictSet, h]
  | cons p t ih =>
    by_cases h2 : p.1 = k'
    · simp [mfind, dictSet, h2, h]
    · simp only [dictSet, h2, if_neg, mfind]
      by_cases h3 : p.1 = k <;> simp [h3, ih]

theorem addMetadata_no_raise (n : Nat) (key : String) (v : Value) (st : RState)
    (h : (schemaType key).isSome) : (addMetadata n key v st).2 = none := by
  cases n with
  | zero => rfl
  | succ m =>
    simp only [addMetadata, convertToUnicode]
    split
    · rfl
    · rcases hs : schemaType key with _ | ft
      · rw [hs] at h; simp at h
      · simp only [hs]
        split <;> rfl

theorem renameLoop_fresh (table : OutTable) (md5 orig : String) (fuel : Nat)
    (fn : String) (numChar : Nat) (hof : ofind fn table = none) :
    renameLoop table md5 orig fuel fn numChar = .fresh fn := by
  cases fuel <;> simp [renameLoop, hof]

theorem renameLoop_dup (table : OutTable) (md5 orig : String) (fuel : Nat)
    (fn : String) (numChar : Nat) (r : OutRecord)
    (hof : ofind fn table = some r) (hm : md5 = r.md5) :
    renameLoop table md5 orig fuel fn numChar = .duplicate fn := by
  cases fuel <;> simp [renameLoop, hof, hm]

theorem renameLoop_step (table : OutTable) (md5 orig : String) (fuel : Nat)
    (fn : String) (numChar : Nat) (r : OutRecord)
    (hof : ofind fn table = some r) (hm : md5 ≠ r.md5) (h32 : ¬ 32 < numChar) :
    renameLoop table md5 orig (fuel + 1) fn numChar =
      renameLoop table md5 orig fuel (orig ++ "_" ++ md5.take numChar)
        (numChar + 1) := by
  simp [renameLoop, hof, hm, h32]

theorem renameLoop_ne_outOfFuel (table : OutTable) (md5 orig : String) :
    ∀ (fuel : Nat) (fn : String) (numChar : Nat), 33 ≤ fuel + numChar →
      renameLoop table md5 orig fuel fn numChar ≠ .outOfFuel := by
  intro fuel
  induction fuel with
  | zero =>
    intro fn numChar h
    rcases hof : ofind fn table with _ | r
    · simp [renameLoop, hof]
    · have h32 : 32 < numChar := by omega
      by_cases hm : md5 = r.md5 <;> simp [renameLoop, hof, hm, h32]
  | succ f ih =>
    intro fn numChar h
    rcases hof : ofind fn table with _ | r
    · simp [renameLoop, hof]
    · by_cases hm : md5 = r.md5
      · simp [renameLoop, hof, hm]
      · by_cases h32 : 32 < numChar
        · simp [renameLoop, hof, hm, h32]
        · rw [renameLoop_step table md5 orig f fn numChar r hof hm h32]
          exact ih _ _ (by omega)

theorem renameLoop_fuel_irrel (table : OutTable) (md5 orig : String) :
    ∀ (fuel fuel2 : Nat) (fn : String) (numChar : Nat),
      33 ≤ fuel + numChar → 33 ≤ fuel2 + numChar →
      renameLoop table md5 orig fuel fn numChar =
        renameLoop table md5 orig fuel2 fn numChar := by
  intro fuel
  induction fuel with
  | zero =>
    intro fuel2 fn numChar h h2
    rcases hof : ofind fn table with _ | r
    · rw [renameLoop_fresh table md5 orig 0 fn numChar hof,
        renameLoop_fresh table md5 orig fuel2 fn numChar hof]
    · by_cases hm : md5 = r.md5
      · rw [renameLoop_dup table md5 orig 0 fn numChar r hof hm,
          renameLoop_dup table md5 orig fuel2 fn numChar r hof hm]
      · have h32 : 32 < numChar := by omega
        cases fuel2 <;> simp [renameLoop, hof, hm, h32]
  | succ f ih =>
    intro fuel2 fn numChar h h2
    rcases hof : ofind fn table with _ | r
    · rw [renameLoop_fresh table md5 orig (f + 1) fn numChar hof,
        renameLoop_fresh table md5 orig fuel2 fn numChar hof]
    · by_cases hm : md5 = r.md5
      · rw [renameLoop_dup table md5 orig (f + 1) fn numChar r hof hm,
          renameLoop_dup table md5 orig fuel2 fn numChar r hof hm]
      · by_cases h32 : 32 < numChar
        · cases fuel2 <;> simp [renameLoop, hof, hm, h32]
        · rw [renameLoop_step table md5 orig f fn numChar r hof hm h32]
          cases fuel2 with
          | zero => omega
          | succ f2 =>
            rw [renameLoop_step table md5 orig f2 fn numChar r hof hm h32]
            exact ih f2 _ _ (by omega) (by omega)

/-- Claim C9: the collision-renaming loop in `output_file` always
terminates; the suffix starts at 5 characters and grows by one per
iteration, so 32 (the md5 digest length) iterations of fuel always suffice:
the loop reaches a terminal outcome (a non-colliding name, a same-content
duplicate, or the `assert num_char <= 32` guard) and extra fuel never
changes the result. -/
theorem c9_rename_loop_terminates (table : OutTable) (md5 orig fn : String) :
    renameLoop table md5 orig 32 fn 5 ≠ .outOfFuel ∧
    ∀ g : Nat, renameLoop table md5 orig (32 + g) fn 5 =
      renameLoop table md5 orig 32 fn 5 := by
  constructor
  · exact renameLoop_ne_outOfFuel table md5 orig 32 fn 5 (by omega)
  · intro g
    exact renameLoop_fuel_irrel table md5 orig (32 + g) 32 fn 5 (by omega) (by omega)

theorem addMetadata_empty (n : Nat) (key : String) (v : Value) (st : RState)
    (he : isEmptyValue v = true) :
    addMetadata (n + 1) key v st =
      ({ st with log := st.log ++
        [(.warn, "no values provided for " ++ key ++ ", skipping")] }, none) := by
  simp [addMetadata, he, logWarn, logWith]

theorem addMetadata_unknown (n : Nat) (key : String) (v : Value) (st : RState)
    (hk : schemaType key = none) (he : isEmptyValue v = false) :
    addMetadata (n + 1) key v st = (st, some (.keyError key)) := by
  simp [addMetadata, convertToUnicode, he, hk]

/-- Claim C1 (amended): for every key not present in the Field Schema, an
`add_metadata` call never mutates the metadata store; it raises the schema
error (`KeyError`) whenever the value is non-empty, but for an empty value
the empty-value no-op check fires first and no error is raised. -/
theorem c1_unknown_key (n : Nat) (key : String) (v : Value) (st : RState)
    (hk : schemaType key = none) :
    (addMetadata (n + 1) key v st).1.metadata = st.metadata ∧
    (isEmptyValue v = false →
      addMetadata (n + 1) key v st = (st, some (.keyError key))) := by
  constructor
  · by_cases he : isEmptyValue v = true
    · rw [addMetadata_empty n key v st he]
    · rw [addMetadata_unknown n key v st hk (by simpa using he)]
  · intro he
    exact addMetadata_unknown n key v st hk he

/-- Claim C1, witness: the amended theorem applied at the unknown key
`bogus` with a non-empty value. -/
theorem c1_witness :
    (addMetadata 1 "bogus" (.vStr "x") ⟨[], []⟩).1.metadata = ([] : Store) ∧
    (isEmptyValue (.vStr "x") = false →
      addMetadata 1 "bogus" (.vStr "x") ⟨[], []⟩ =
        (⟨[], []⟩, some (.keyError "bogus"))) :=
  c1_unknown_key 0 "bogus" (.vStr "x") ⟨[], []⟩ (by decide)

/-- Claim C1, counterexample to the claim as stated: reporting the unknown
key `bogus` with the empty value raises nothing (the empty-value no-op
check precedes the schema check), so an unknown field name does not
*always* yield the schema error. -/
theorem c1_counterexample :
    schemaType "bogus" = none ∧
    (addMetadata 8 "bogus" (.vStr "") ⟨[], []⟩).2 = none ∧
    (addMetadata 8 "bogus" (.vStr "") ⟨[], []⟩).1.metadata = [] := by
  decide

/-- Claim C5 (amended): for every key (known or unknown), a call whose value
is `None`, empty, or entirely composed of empty components is a no-op on
the store and raises no error; it is logged at *warning* level (the source
uses `logger.warn`, not an informational log). -/
theorem c5_empty_value_noop (n : Nat) (key : String) (v : Value) (st : RState)
    (he : isEmptyValue v = true) :
    addMetadata (n + 1) key v st =
      ({ st with log := st.log ++
        [(LogLevel.warn, "no values provided for " ++ key ++ ", skipping")] },
        none) :=
  addMetadata_empty n key v st he

/-- Claim C5, witness: the amended theorem applied to the known key `mutex`
with an empty string value. -/
theorem c5_witness :
    addMetadata 1 "mutex" (.vStr "") ⟨[], []⟩ =
      (⟨[], [(LogLevel.warn, "no values provided for mutex, skipping")]⟩,
        none) :=
  c5_empty_value_noop 0 "mutex" (.vStr "") ⟨[], []⟩ (by decide)

/-- Claim C5, counterexample to the claim as stated: the empty-value no-op
is logged through `logger.warn`, i.e. at warning level, not at the
informational level the claim asserts. -/
theorem c5_counterexample :
    addMetadata 8 "mutex" (.vStr "") ⟨[], []⟩ =
      (⟨[], [(LogLevel.warn, "no values provided for mutex, skipping")]⟩,
        none) ∧
    LogLevel.warn ≠ LogLevel.info := by
  decide

/-- Claim C4: reporting `c2_url = "http://bad.com:80/x"` stores
`url = "http://bad.com:80/x"`, `urlpath = "/x"`,
`c2_socketaddress = ("bad.com", "80", "tcp")` and `c2_address = "bad.com"`
(besides the `c2_url` entry itself and the further derived
`socketaddress`/`address`/`port` entries). -/
theorem c4_c2_url_derivations :
    mfind "url"
      (addMetadata 8 "c2_url" (.vStr "http://bad.com:80/x") ⟨[], []⟩).1.metadata
      = some (.strs ["http://bad.com:80/x"]) ∧
    mfind "urlpath"
      (addMetadata 8 "c2_url" (.vStr "http://bad.com:80/x") ⟨[], []⟩).1.metadata
      = some (.strs ["/x"]) ∧
    mfind "c2_socketaddress"
      (addMetadata 8 "c2_url" (.vStr "http://bad.com:80/x") ⟨[], []⟩).1.metadata
      = some (.tups [["bad.com", "80", "tcp"]]) ∧
    mfind "c2_address"
      (addMetadata 8 "c2_url" (.vStr "http://bad.com:80/x") ⟨[], []⟩).1.metadata
      = some (.strs ["bad.com"]) := by
  decide

/-- Claim C6 (the code bug): in a `dictofstrings` merge, a non-string entry
does not produce a logged warning while the remaining entries are
processed — building the warning text subscripts the non-string value
(`subvalue[subkey]`), which raises `TypeError`; `add_metadata` catches it
and logs an exception, and the entries after the bad one are never merged
(entries merged before it persist). -/
theorem c6_dict_merge_bug :
    addMetadata 8 "other" (.vDict [("a", .other), ("b", .str "ok")]) ⟨[], []⟩
      = (⟨[], [(LogLevel.error, "Error adding metadata for key: other")]⟩,
          none) ∧
    mfind "other"
      (addMetadata 8 "other" (.vDict [("b", .str "ok"), ("a", .other)])
        ⟨[], []⟩).1.metadata
      = some (.smap [("b", .one "ok")]) := by
  decide

/-- Claim C2, counterexample to the claim as stated: after reporting the
proxy 3-tuple `(user, pass, host)`, the store contains a
`proxy_socketaddress = (host, "", "")` entry — the padding to length 5
happens before the `proxy` rule counts the remaining address components, so
three (not one) components follow and the `proxy_socketaddress` branch, not
the direct `proxy_address` branch, is taken. -/
theorem c2_counterexample :
    mfind "proxy_socketaddress"
      (addMetadata 8 "proxy" (.vList ["user", "pass", "host"]) ⟨[], []⟩).1.metadata
      = some (.tups [["host", "", ""]]) := by
  decide

theorem append_suffix_ne (s t : String) : s ++ "_" ++ t ≠ s := by
  intro h
  have hlen := congrArg String.length h
  rw [String.length_append, String.length_append] at hlen
  have h1 : ("_" : String).length = 1 := rfl
  omega

theorem outputFile_duplicate (hash : List Nat → String) (b64 : Bool)
    (st : OFState) (d : List Nat) (name desc : String) (r : OutRecord)
    (hof : ofind name st.outputfiles = some r) (hm : hash d = r.md5) :
    outputFile hash b64 st d name desc =
      ({ st with log := st.log ++
          [(.info, "Ignoring duplicate output file: " ++ name)] },
        .ok none) := by
  simp only [outputFile]
  rw [renameLoop_dup st.outputfiles (hash d) name 32 name 5 r hof hm]

theorem outputFile_fresh (hash : List Nat → String) (b64 : Bool)
    (st : OFState) (d : List Nat) (name desc : String)
    (hof : ofind name st.outputfiles = none) :
    ∃ rst : RState,
      outputFile hash b64 st d name desc =
        (⟨rst.metadata, rst.log,
          oset name ⟨d, desc, hash d⟩ st.outputfiles⟩, .ok none) := by
  simp only [outputFile]
  rw [renameLoop_fresh st.outputfiles (hash d) name 32 name 5 hof]
  simp only [ne_eq, not_true_eq_false, ite_false, if_neg]
  rcases ha : addMetadata 8 "outputfile"
      (if b64 then
        .vList [osBasename name, desc, hash d, b64encode d]
      else .vList [osBasename name, desc, hash d])
      ⟨st.metadata, st.log⟩ with ⟨rst, exc⟩
  have hexc : exc = none := by
    have h2 := addMetadata_no_raise 8 "outputfile"
      (if b64 then
        .vList [osBasename name, desc, hash d, b64encode d]
      else .vList [osBasename name, desc, hash d])
      ⟨st.metadata, st.log⟩ (by decide)
    rw [ha] at h2
    exact h2
  subst hexc
  exact ⟨rst, rfl⟩

theorem outputFile_rename (hash : List Nat → String) (b64 : Bool)
    (st : OFState) (d : List Nat) (name desc : String) (r : OutRecord)
    (hof : ofind name st.outputfiles = some r) (hm : hash d ≠ r.md5)
    (hof2 : ofind (name ++ "_" ++ (hash d).take 5) st.outputfiles = none) :
    ∃ rst : RState,
      outputFile hash b64 st d name desc =
        (⟨rst.metadata, rst.log,
          oset (name ++ "_" ++ (hash d).take 5) ⟨d, desc, hash d⟩
            st.outputfiles⟩, .ok none) := by
  have hne := append_suffix_ne name ((hash d).take 5)
  simp only [outputFile]
  rw [renameLoop_step st.outputfiles (hash d) name 31 name 5 r hof hm
    (by omega)]
  rw [renameLoop_fresh st.outputfiles (hash d) name 31
    (name ++ "_" ++ (hash d).take 5) 6 hof2]
  simp only [ne_eq, Ne.symm hne, not_false_eq_true, ite_true, if_pos]
  rcases ha : addMetadata 8 "outputfile"
      (if b64 then
        .vList [osBasename (name ++ "_" ++ (hash d).take 5), desc, hash d,
          b64encode d]
      else .vList [osBasename (name ++ "_" ++ (hash d).take 5), desc, hash d])
      ⟨st.metadata, st.log ++
        [(.info, "Renamed " ++ name ++ " to " ++
          (name ++ "_" ++ (hash d).take 5))]⟩ with ⟨rst, exc⟩
  have hexc : exc = none := by
    have h2 := addMetadata_no_raise 8 "outputfile"
      (if b64 then
        .vList [osBasename (name ++ "_" ++ (hash d).take 5), desc, hash d,
          b64encode d]
      else .vList [osBasename (name ++ "_" ++ (hash d).take 5), desc, hash d])
      ⟨st.metadata, st.log ++
        [(.info, "Renamed " ++ name ++ " to " ++
          (name ++ "_" ++ (hash d).take 5))]⟩ (by decide)
    rw [ha] at h2
    exact h2
  subst hexc
  rw [ha]
  exact ⟨rst, rfl⟩

/-- Claim C3 (amended): recording `name` twice with identical content is
idempotent — exactly one record is kept and the second call makes no change
to the record table; `output_file` has no return value, so the call returns
`None`, not the stored name.  Recording `name` twice with content of
different hashes yields two records under two distinct stored names, the
second being `name + "_" + first-5-hex-chars(new hash)`. -/
theorem c3_output_file (hash : List Nat → String) (b64 : Bool) (md : Store)
    (lg : List (LogLevel × String)) (d1 d2 : List Nat)
    (name desc1 desc2 : String) :
    ((outputFile hash b64 (outputFile hash b64 ⟨md, lg, []⟩ d1 name desc1).1
        d1 name desc2).1.outputfiles = [(name, ⟨d1, desc1, hash d1⟩)] ∧
      (outputFile hash b64 (outputFile hash b64 ⟨md, lg, []⟩ d1 name desc1).1
        d1 name desc2).2 = Except.ok none) ∧
    (hash d1 ≠ hash d2 →
      (outputFile hash b64 (outputFile hash b64 ⟨md, lg, []⟩ d1 name desc1).1
        d2 name desc2).1.outputfiles
        = [(name, ⟨d1, desc1, hash d1⟩),
           (name ++ "_" ++ (hash d2).take 5, ⟨d2, desc2, hash d2⟩)] ∧
      name ++ "_" ++ (hash d2).take 5 ≠ name ∧
      (outputFile hash b64 (outputFile hash b64 ⟨md, lg, []⟩ d1 name desc1).1
        d2 name desc2).2 = Except.ok none) := by
  obtain ⟨rst1, hr1⟩ :=
    outputFile_fresh hash b64 ⟨md, lg, []⟩ d1 name desc1 rfl
  rw [hr1]
  have hof1 : ofind name (oset name ⟨d1, desc1, hash d1⟩
      (([] : OutTable))) = some ⟨d1, desc1, hash d1⟩ := by
    simp [ofind, oset]
  constructor
  · rw [outputFile_duplicate hash b64 _ d1 name desc2 ⟨d1, desc1, hash d1⟩
      hof1 rfl]
    simp [oset]
  · intro hne
    obtain ⟨rst3, hr3⟩ :=
      outputFile_rename hash b64
        ⟨rst1.metadata, rst1.log, oset name ⟨d1, desc1, hash d1⟩ []⟩
        d2 name desc2 ⟨d1, desc1, hash d1⟩ hof1 (fun hc => hne (hc.symm))
        (by
          have hx := Ne.symm (append_suffix_ne name ((hash d2).take 5))
          simp [ofind, oset, hx])
    rw [hr3]
    have hx := Ne.symm (append_suffix_ne name ((hash d2).take 5))
    refine ⟨?_, append_suffix_ne name ((hash d2).take 5), rfl⟩
    simp [oset, hx]

/-- Claim C3, counterexample to the claim as stated: the second call with
the same name and identical data returns `None` (the body of `output_file`
has no `return <value>` statement), not the stored name of the existing
record — even though exactly one record is kept. -/
theorem c3_counterexample :
    (outputFile demoHash false
      (outputFile demoHash false ⟨[], [], []⟩ [1, 2] "a.txt" "d").1
      [1, 2] "a.txt" "d").2 = Except.ok none ∧
    (Except.ok (none : Option String) : Except Exc (Option String)) ≠
      Except.ok (some "a.txt") ∧
    (outputFile demoHash false
      (outputFile demoHash false ⟨[], [], []⟩ [1, 2] "a.txt" "d").1
      [1, 2] "a.txt" "d").1.outputfiles.length = 1 := by
  decide

/-- Claim C3, witness: the amended theorem applied at a concrete digest
function and contents with distinct digests. -/
theorem c3_witness :
    demoHash [1, 2] ≠ demoHash [3] ∧
    (outputFile demoHash false
        (outputFile demoHash false ⟨[], [], []⟩ [1, 2] "a.txt" "d1").1
        [3] "a.txt" "d2").1.outputfiles
      = [("a.txt", ⟨[1, 2], "d1", demoHash [1, 2]⟩),
         ("a.txt" ++ "_" ++ (demoHash [3]).take 5, ⟨[3], "d2", demoHash [3]⟩)] :=
  ⟨by decide,
    ((c3_output_file demoHash false [] [] [1, 2] [3] "a.txt" "d1" "d2").2
      (by decide)).1⟩

theorem keeps_refl (k : String) (st : RState) (e : Option Exc) :
    Keeps k st (st, e) := rfl

theorem keeps_log (k : String) (lv : LogLevel) (st : RState) (msg : String)
    (e : Option Exc) : Keeps k st (logWith lv st msg, e) := rfl

theorem keeps_rseq {k : String} {st : RState} {r : RRes} {f : RState → RRes}
    (h1 : Keeps k st r) (h2 : ∀ st1, Keeps k st1 (f st1)) :
    Keeps k st (rseq r f) := by
  rcases r with ⟨st1, exc⟩
  cases exc with
  | none => exact (h2 st1).trans h1
  | some e => exact h1

theorem not_mem_of_subset {k : String} {l1 l2 : List String}
    (hsub : ∀ x ∈ l1, x ∈ l2) (h : k ∉ l2) : k ∉ l1 :=
  fun hm => h (hsub k hm)

theorem urlBlock_keeps (cb : String → Value → RState → RRes) (k : String)
    (hcb : ∀ key' v' st', k ∉ touch key' → Keeps k st' (cb key' v' st'))
    (key value : String) (st : RState)
    (h1 : k ∉ touch "urlpath") (h2 : k ∉ touch "socketaddress")
    (h3 : key = "c2_url" → k ∉ touch "c2_socketaddress")
    (h4 : key = "c2_url" → k ∉ touch "c2_address")
    (h5 : k ∉ touch "address") :
    Keeps k st (urlBlock cb key value st) := by
  simp only [urlBlock]
  split
  · exact keeps_log k .error st _ none
  · refine keeps_rseq ?_ (fun st1 => ?_)
    · split
      · exact hcb _ _ _ h1
      · exact keeps_refl k st none
    · split
      · exact keeps_refl k st1 none
      · split
        · split
          · split
            · next hkey => exact hcb _ _ _ (h3 hkey)
            · exact hcb _ _ _ h2
          · exact keeps_log k .error st1 _ none
        · split
          · next hkey => exact hcb _ _ _ (h4 hkey)
          · exact hcb _ _ _ h5

theorem losCascade_keeps (cb : String → Value → RState → RRes) (k : String)
    (hcb : ∀ key' v' st', k ∉ touch key' → Keeps k st' (cb key' v' st'))
    (key value : String) (st : RState) (htail : k ∉ tailTouch key) :
    Keeps k st (losCascade cb key value st) := by
  simp only [losCascade]
  refine keeps_rseq ?_ (fun st1 => ?_)
  · split
    · next hkey =>
      subst hkey
      exact keeps_rseq (hcb _ _ _ (not_mem_of_subset (by decide) htail))
        (fun st2 => hcb _ _ _ (not_mem_of_subset (by decide) htail))
    · exact keeps_refl k st none
  · refine keeps_rseq ?_ (fun st2 => ?_)
    · split
      · next hkey =>
        subst hkey
        exact hcb _ _ _ (not_mem_of_subset (by decide) htail)
      · exact keeps_refl k st1 none
    · refine keeps_rseq ?_ (fun st3 => ?_)
      · split
        · next hkey =>
          rcases hkey with hkey | hkey <;> subst hkey <;>
            exact hcb _ _ _ (not_mem_of_subset (by decide) htail)
        · exact keeps_refl k st2 none
      · refine keeps_rseq ?_ (fun st4 => ?_)
        · split
          · next hkey =>
            subst hkey
            split
            · exact hcb _ _ _ (not_mem_of_subset (by decide) htail)
            · exact keeps_refl k st3 none
          · exact keeps_refl k st3 none
        · refine keeps_rseq ?_ (fun st5 => ?_)
          · split
            · next hkey =>
              subst hkey
              exact hcb _ _ _ (not_mem_of_subset (by decide) htail)
            · exact keeps_refl k st4 none
          · refine keeps_rseq ?_ (fun st6 => ?_)
            · split
              · split
                · exact keeps_refl k st5 none
                · exact keeps_log k .error st5 _ none
              · exact keeps_refl k st5 none
            · split
              · next hkey =>
                rcases hkey with hkey | hkey <;> subst hkey
                · exact urlBlock_keeps cb k hcb _ value st6
                    (not_mem_of_subset (by decide) htail)
                    (not_mem_of_subset (by decide) htail)
                    (fun hc => absurd hc (by decide))
                    (fun hc => absurd hc (by decide))
                    (not_mem_of_subset (by decide) htail)
                · exact urlBlock_keeps cb k hcb _ value st6
                    (not_mem_of_subset (by decide) htail)
                    (not_mem_of_subset (by decide) htail)
                    (fun _ => not_mem_of_subset (by decide) htail)
                    (fun _ => not_mem_of_subset (by decide) htail)
                    (not_mem_of_subset (by decide) htail)
              · exact keeps_refl k st6 none

theorem warnIf_metadata (c : Prop) [Decidable c] (st : RState) (m : String) :
    (if c then logWarn st m else st).metadata = st.metadata := by
  split <;> rfl

theorem zipAdds_keeps (cb : String → Value → RState → RRes) (k : String)
    (hcb : ∀ key' v' st', k ∉ touch key' → Keeps k st' (cb key' v' st')) :
    ∀ (sfs vs : List String) (st : RState),
      (∀ sf ∈ sfs, k ∉ touch sf) → Keeps k st (zipAdds cb sfs vs st) := by
  intro sfs
  induction sfs with
  | nil => intro vs st h; exact keeps_refl k st none
  | cons sf sfs ih =>
    intro vs st h
    cases vs with
    | nil => exact keeps_refl k st none
    | cons v vs =>
      refine keeps_rseq ?_
        (fun st1 => ih vs st1 (fun x hx => h x (by simp [hx])))
      split
      · exact keeps_refl k st none
      · exact hcb _ _ _ (h sf (by simp))

theorem subfieldMap_touch (key : String) (sfs : List String)
    (h : subfieldMap key = some sfs) :
    ∀ sf ∈ sfs, ∀ x ∈ touch sf, x ∈ tailTouch key := by
  simp only [subfieldMap] at h
  split at h
  · next hkey => cases h; subst hkey; decide
  · split at h
    · next hkey => cases h; subst hkey; decide
    · split at h
      · next hkey => cases h; subst hkey; decide
      · cases h

theorem tupCascade_keeps (cb : String → Value → RState → RRes) (k : String)
    (hcb : ∀ key' v' st', k ∉ touch key' → Keeps k st' (cb key' v' st'))
    (key : String) (values : List String) (st : RState)
    (htail : k ∉ tailTouch key) :
    Keeps k st (tupCascade cb key values st) := by
  simp only [tupCascade]
  refine keeps_rseq ?_ (fun st1 => ?_)
  · -- subfield decomposition block
    split
    · next subfields hsf =>
      refine keeps_rseq
        (zipAdds_keeps cb k hcb subfields values st (fun sf hm =>
          not_mem_of_subset
            (fun x hx => subfieldMap_touch key subfields hsf sf hm x hx)
            htail)) (fun st2 => ?_)
      split
      · exact keeps_log k .warn st2 _ none
      · exact keeps_refl k st2 none
    · exact keeps_refl k st none
  · refine keeps_rseq ?_ (fun st2 => ?_)
    · -- c2_socketaddress block
      split
      · next hkey =>
        subst hkey
        refine keeps_rseq (hcb _ _ _ (not_mem_of_subset (by decide) htail))
          (fun st2 => ?_)
        split
        · exact keeps_refl k st2 (some .indexError)
        · exact hcb _ _ _ (not_mem_of_subset (by decide) htail)
      · exact keeps_refl k st1 none
    · refine keeps_rseq ?_ (fun st3 => ?_)
      · -- proxy_socketaddress block
        split
        · next hkey =>
          subst hkey
          refine keeps_rseq (hcb _ _ _ (not_mem_of_subset (by decide) htail))
            (fun st3 => ?_)
          split
          · exact keeps_refl k st3 (some .indexError)
          · exact hcb _ _ _ (not_mem_of_subset (by decide) htail)
        · exact keeps_refl k st2 none
      · refine keeps_rseq ?_ (fun st4 => ?_)
        · -- socketaddress block
          split
          · next hkey =>
            subst hkey
            split
            · exact keeps_refl _ _ _ |>.trans
                (congrArg (mfind k) (warnIf_metadata _ st3 _))
            · refine keeps_rseq
                ((hcb _ _ _ (not_mem_of_subset (by decide) htail)).trans
                  (congrArg (mfind k) (warnIf_metadata _ st3 _)))
                (fun st4 => hcb _ _ _ (not_mem_of_subset (by decide) htail))
          · exact keeps_refl k st3 none
        · refine keeps_rseq ?_ (fun st5 => ?_)
          · -- port / listenport block
            split
            · next hkey =>
              split
              · exact keeps_refl _ _ _ |>.trans
                  (congrArg (mfind k) (warnIf_metadata _ st4 _))
              · refine keeps_rseq ?_ (fun st5 => ?_)
                · split
                  · split
                    · exact keeps_refl _ _ _ |>.trans
                        (congrArg (mfind k) (warnIf_metadata _ st4 _))
                    · split
                      · exact keeps_log _ _ _ _ _ |>.trans
                          (congrArg (mfind k) (warnIf_metadata _ st4 _))
                      · exact keeps_refl _ _ _ |>.trans
                          (congrArg (mfind k) (warnIf_metadata _ st4 _))
                  · exact keeps_log _ _ _ _ _ |>.trans
                      (congrArg (mfind k) (warnIf_metadata _ st4 _))
                · split
                  · split
                    · exact keeps_log k .warn st5 _ none
                    · exact keeps_refl k st5 none
                  · exact keeps_refl k st5 none
            · exact keeps_refl k st4 none
          · refine keeps_rseq ?_ (fun st6 => ?_)
            · -- proxy block
              split
              · next hkey =>
                subst hkey
                refine keeps_rseq
                  ((hcb _ _ _ (not_mem_of_subset (by decide) htail)).trans
                    (congrArg (mfind k) (warnIf_metadata _ st5 _)))
                  (fun st6 => ?_)
                split
                · exact hcb _ _ _ (not_mem_of_subset (by decide) htail)
                · exact hcb _ _ _ (not_mem_of_subset (by decide) htail)
              · exact keeps_refl k st5 none
            · refine keeps_rseq ?_ (fun st7 => ?_)
              · -- ftp block
                split
                · next hkey =>
                  subst hkey
                  refine keeps_rseq
                    ((hcb _ _ _ (not_mem_of_subset (by decide) htail)).trans
                      (congrArg (mfind k) (warnIf_metadata _ st6 _)))
                    (fun st7 => ?_)
                  split
                  · exact hcb _ _ _ (not_mem_of_subset (by decide) htail)
                  · exact keeps_refl k st7 none
                · exact keeps_refl k st6 none
              · refine keeps_rseq ?_ (fun st8 => ?_)
                · -- rsa_public_key block
                  split
                  · split
                    · exact keeps_log k .warn st7 _ none
                    · exact keeps_refl k st7 none
                  · exact keeps_refl k st7 none
                · -- rsa_private_key block
                  split
                  · split
                    · exact keeps_log k .warn st8 _ none
                    · exact keeps_refl k st8 none
                  · exact keeps_refl k st8 none

theorem losStore_keeps (k key value : String) (st : RState) (hk : k ≠ key) :
    Keeps k st (losStore key value st) := by
  unfold losStore
  split
  · exact mfind_dictSet_ne k key _ _ (Ne.symm hk)
  · split
    · exact mfind_dictSet_ne k key _ _ (Ne.symm hk)
    · rfl
  · rfl

theorem tupStore_keeps (k key : String) (values : List String) (st : RState)
    (hk : k ≠ key) : Keeps k st (tupStore key values st) := by
  unfold tupStore
  split
  · exact mfind_dictSet_ne k key _ _ (Ne.symm hk)
  · split
    · exact mfind_dictSet_ne k key _ _ (Ne.symm hk)
    · rfl
  · rfl

theorem dictMergeEntries_keeps (k key : String) (hk : k ≠ key) :
    ∀ (m : List (String × PyObj)) (st : RState),
      Keeps k st (dictMergeEntries key m st) := by
  intro m
  induction m with
  | nil => intro st; exact keeps_refl k st none
  | cons e rest ih =>
    intro st
    rcases e with ⟨subkey, subvalue⟩
    cases subvalue with
    | str sv =>
      simp only [dictMergeEntries]
      split
      · exact (ih _).trans (mfind_dictSet_ne k key _ _ (Ne.symm hk))
      · exact (ih _).trans (mfind_dictSet_ne k key _ _ (Ne.symm hk))
      · exact keeps_refl k st (some .typeError)
    | other => exact keeps_refl k st (some .typeError)

theorem los_keeps (cb : String → Value → RState → RRes) (k : String)
    (hcb : ∀ key' v' st', k ∉ touch key' → Keeps k st' (cb key' v' st'))
    (key : String) (value : Value) (st : RState)
    (hk : k ≠ key) (htail : k ∉ tailTouch key) :
    Keeps k st (addMetadataListofstrings cb key value st) := by
  unfold addMetadataListofstrings
  split
  · split
    · exact keeps_log k .info st _ none
    · exact keeps_rseq (losStore_keeps k key _ st hk)
        (fun st1 => losCascade_keeps cb k hcb key _ st1 htail)
  · exact keeps_refl k st (some .typeError)

theorem tup_keeps (cb : String → Value → RState → RRes) (k : String)
    (hcb : ∀ key' v' st', k ∉ touch key' → Keeps k st' (cb key' v' st'))
    (key : String) (value : Value) (st : RState)
    (hk : k ≠ key) (htail : k ∉ tailTouch key) :
    Keeps k st (addMetadataListofstringtuples cb key value st) := by
  unfold addMetadataListofstringtuples
  split
  · exact keeps_refl k st _
  · exact keeps_rseq (tupStore_keeps k key _ st hk)
      (fun st1 => tupCascade_keeps cb k hcb key _ st1 htail)

theorem dict_keeps (k key : String) (value : Value) (st : RState)
    (hk : k ≠ key) : Keeps k st (addMetadataDictofstrings key value st) := by
  unfold addMetadataDictofstrings
  split
  · exact dictMergeEntries_keeps k key hk _ st
  · exact keeps_refl k st (some .typeError)

/-- An intake call can change the stored entry of a field `k` only when `k`
is the reported field itself or one of the fields its cascade reaches. -/
theorem addMetadata_keeps (n : Nat) :
    ∀ (key : String) (v : Value) (st : RState) (k : String),
      k ∉ touch key → Keeps k st (addMetadata n key v st) := by
  induction n with
  | zero => intro key v st k _; exact keeps_refl k st none
  | succ m ih =>
    intro key v st k hk
    have hkey : k ≠ key := fun he => hk (by simp [touch, he])
    have htail : k ∉ tailTouch key := fun hm => hk (by simp [touch, hm])
    have hcb : ∀ key' v' st', k ∉ touch key' →
        Keeps k st' (addMetadata m key' v' st') :=
      fun key' v' st' h => ih key' v' st' k h
    simp only [addMetadata, convertToUnicode]
    split
    · exact keeps_log k .warn st _ none
    · split
      · exact keeps_refl k st _
      · next ft hft =>
        cases ft with
        | listofstrings =>
          rcases hr : addMetadataListofstrings (addMetadata m) key v st
            with ⟨st1, exc⟩
          have hm := los_keeps (addMetadata m) k hcb key v st hkey htail
          rw [hr] at hm
          cases exc with
          | none => exact hm
          | some e => exact hm
        | listofstringtuples =>
          rcases hr : addMetadataListofstringtuples (addMetadata m) key v st
            with ⟨st1, exc⟩
          have hm := tup_keeps (addMetadata m) k hcb key v st hkey htail
          rw [hr] at hm
          cases exc with
          | none => exact hm
          | some e => exact hm
        | dictofstrings =>
          rcases hr : addMetadataDictofstrings key v st with ⟨st1, exc⟩
          have hm := dict_keeps k key v st hkey
          rw [hr] at hm
          cases exc with
          | none => exact hm
          | some e => exact hm

theorem map_convertToUnicode (l : List String) :
    List.map convertToUnicode l = l := List.map_id' l

theorem los_self (cb : String → Value → RState → RRes) (key v : String)
    (st : RState)
    (hcb : ∀ key' v' st', key ∉ touch key' → Keeps key st' (cb key' v' st'))
    (hv : ¬ v = "") (hself : key ∉ tailTouch key) :
    mfind key ((addMetadataListofstrings cb key (.vStr v) st).1).metadata =
      (match mfind key st.metadata with
       | none => some (.strs [v])
       | some (.strs l) =>
         some (.strs (if key = "debug" ∨ ¬ v ∈ l then l ++ [v] else l))
       | some w => some w) := by
  simp only [addMetadataListofstrings, convertToUnicode]
  rw [if_neg hv]
  unfold losStore
  split
  · exact (losCascade_keeps cb key hcb key v _ hself).trans
      (mfind_dictSet_self key _ st.metadata)
  · next l hfind =>
    split
    · exact (losCascade_keeps cb key hcb key v _ hself).trans
        (mfind_dictSet_self key _ st.metadata)
    · exact (losCascade_keeps cb key hcb key v _ hself).trans hfind
  · next h1 h2 hfind =>
    exact hfind

theorem tup_self (cb : String → Value → RState → RRes) (key : String)
    (vs : List String) (st : RState)
    (hcb : ∀ key' v' st', key ∉ touch key' → Keeps key st' (cb key' v' st'))
    (hself : key ∉ tailTouch key) (values : List String)
    (hvals : values =
      (if key = "proxy" then vs ++ List.replicate (5 - vs.length) ""
       else if key = "rsa_private_key" then
         vs ++ List.replicate (8 - vs.length) ""
       else vs)) :
    mfind key
        ((addMetadataListofstringtuples cb key (.vList vs) st).1).metadata =
      (match mfind key st.metadata with
       | none => some (.tups [values])
       | some (.tups l) =>
         some (.tups (if ¬ values ∈ l then l ++ [values] else l))
       | some w => some w) := by
  simp only [addMetadataListofstringtuples, iterStrings, map_convertToUnicode]
  rw [← hvals]
  unfold tupStore
  split
  · exact (tupCascade_keeps cb key hcb key values _ hself).trans
      (mfind_dictSet_self key _ st.metadata)
  · next l hfind =>
    split
    · exact (tupCascade_keeps cb key hcb key values _ hself).trans
        (mfind_dictSet_self key _ st.metadata)
    · exact (tupCascade_keeps cb key hcb key values _ hself).trans hfind
  · next h1 h2 hfind =>
    exact hfind

theorem addMetadata_scalar_self (n : Nat) (key v : String) (st : RState)
    (hs : schemaType key = some .listofstrings) (hv : ¬ v = "")
    (hself : key ∉ tailTouch key) :
    mfind key ((addMetadata (n + 1) key (.vStr v) st).1).metadata =
      (match mfind key st.metadata with
       | none => some (.strs [v])
       | some (.strs l) =>
         some (.strs (if key = "debug" ∨ ¬ v ∈ l then l ++ [v] else l))
       | some w => some w) := by
  have hcb : ∀ key' v' st', key ∉ touch key' →
      Keeps key st' (addMetadata n key' v' st') :=
    fun key' v' st' h => addMetadata_keeps n key' v' st' key h
  simp only [addMetadata, convertToUnicode]
  rw [if_neg (by simp [isEmptyValue, hv] :
    ¬ isEmptyValue (Value.vStr v) = true)]
  simp only [hs]
  rcases hr : addMetadataListofstrings (addMetadata n) key (.vStr v) st
    with ⟨st1, exc⟩
  have hm := los_self (addMetadata n) key v st hcb hv hself
  rw [hr] at hm
  cases exc with
  | none => exact hm
  | some e => exact hm

theorem addMetadata_tup_self (n : Nat) (key : String) (vs : List String)
    (st : RState) (hs : schemaType key = some .listofstringtuples)
    (hne : vs.all (fun x => x == "") = false)
    (hself : key ∉ tailTouch key) (values : List String)
    (hvals : values =
      (if key = "proxy" then vs ++ List.replicate (5 - vs.length) ""
       else if key = "rsa_private_key" then
         vs ++ List.replicate (8 - vs.length) ""
       else vs)) :
    mfind key ((addMetadata (n + 1) key (.vList vs) st).1).metadata =
      (match mfind key st.metadata with
       | none => some (.tups [values])
       | some (.tups l) =>
         some (.tups (if ¬ values ∈ l then l ++ [values] else l))
       | some w => some w) := by
  have hcb : ∀ key' v' st', key ∉ touch key' →
      Keeps key st' (addMetadata n key' v' st') :=
    fun key' v' st' h => addMetadata_keeps n key' v' st' key h
  simp only [addMetadata, convertToUnicode]
  rw [if_neg (by simp only [isEmptyValue, hne, Bool.false_eq_true,
    not_false_eq_true] : ¬ isEmptyValue (Value.vList vs) = true)]
  simp only [hs]
  rcases hr : addMetadataListofstringtuples (addMetadata n) key (.vList vs) st
    with ⟨st1, exc⟩
  have hm := tup_self (addMetadata n) key vs st hcb hself values hvals
  rw [hr] at hm
  cases exc with
  | none => exact hm
  | some e => exact hm

theorem schemaType_mem (k : String) (ft : FType)
    (h : schemaType k = some ft) : (k, ft) ∈ fieldsTable := by
  simp only [schemaType] at h
  rcases hfind : fieldsTable.find? (fun p => p.1 = k) with _ | p
  · rw [hfind] at h; simp at h
  · rw [hfind] at h
    simp only [Option.map_some'] at h
    have h1 : p.1 = k := by
      have := List.find?_some hfind
      simpa using this
    have h2 : p.2 = ft := by simpa using h
    have hmem := List.mem_of_find?_eq_some hfind
    have hp : p = (k, ft) := Prod.ext h1 h2
    rwa [hp] at hmem

theorem scalar_self_safe (k : String)
    (hs : schemaType k = some FType.listofstrings) : k ∉ tailTouch k := by
  have hmem := schemaType_mem k FType.listofstrings hs
  have hk : k ∈ (fieldsTable.filter
      (fun p => p.2 == FType.listofstrings)).map Prod.fst :=
    List.mem_map_of_mem Prod.fst (List.mem_filter.mpr ⟨hmem, by simp⟩)
  have hall : ∀ x ∈ (fieldsTable.filter
      (fun p => p.2 == FType.listofstrings)).map Prod.fst,
      x ∉ tailTouch x := by decide
  exact hall k hk

theorem addMetadata_debug_step (n : Nat) (v : String) (st : RState)
    (hv : v ≠ "") :
    mfind "debug" ((addMetadata (n + 1) "debug" (.vStr v) st).1).metadata =
      (match mfind "debug" st.metadata with
       | none => some (.strs [v])
       | some (.strs l) => some (.strs (l ++ [v]))
       | some w => some w) := by
  rw [addMetadata_scalar_self n "debug" v st (by decide) hv (by decide)]
  rcases hmd : mfind "debug" st.metadata with _ | w
  · simp
  · cases w <;> simp

theorem addMetadata_debug_step8 (v : String) (st : RState) (hv : v ≠ "") :
    mfind "debug" ((addMetadata 8 "debug" (.vStr v) st).1).metadata =
      (match mfind "debug" st.metadata with
       | none => some (.strs [v])
       | some (.strs l) => some (.strs (l ++ [v]))
       | some w => some w) :=
  addMetadata_debug_step 7 v st hv

theorem repDebug_entry (v : String) (hv : v ≠ "") : ∀ m : Nat,
    mfind "debug" (repDebug v (m + 1)).metadata =
      some (.strs (List.replicate (m + 1) v)) := by
  intro m
  induction m with
  | zero =>
    simp only [repDebug]
    rw [addMetadata_debug_step8 v _ hv]
    simp [repDebug, mfind]
  | succ j ih =>
    show mfind "debug"
        ((addMetadata 8 "debug" (.vStr v) (repDebug v (j + 1))).1).metadata = _
    rw [addMetadata_debug_step8 v _ hv, ih]
    simp [List.replicate_succ']

/-- Claim C7: for every ScalarList field other than `debug`, reporting the
same non-empty value twice leaves exactly one occurrence in the field's
list (the stored entry is exactly `[v]` after both calls), while for the
`debug` field every report appends, so `m + 1` reports of the same value
leave `m + 1` occurrences. -/
theorem c7_scalar_dedup_debug_appends :
    (∀ (n : Nat) (k v : String), schemaType k = some FType.listofstrings →
      k ≠ "debug" → v ≠ "" →
      mfind k ((addMetadata (n + 1) k (.vStr v)
        ((addMetadata (n + 1) k (.vStr v) ⟨[], []⟩).1)).1).metadata
        = some (.strs [v])) ∧
    (∀ (m : Nat) (v : String), v ≠ "" →
      mfind "debug" (repDebug v (m + 1)).metadata
        = some (.strs (List.replicate (m + 1) v)) ∧
      (List.replicate (m + 1) v).count v = m + 1) := by
  constructor
  · intro n k v hs hd hv
    have hself := scalar_self_safe k hs
    have h1 : mfind k ((addMetadata (n + 1) k (.vStr v) ⟨[], []⟩).1).metadata
        = some (.strs [v]) := by
      rw [addMetadata_scalar_self n k v ⟨[], []⟩ hs hv hself]
      simp [mfind]
    rw [addMetadata_scalar_self n k v _ hs hv hself, h1]
    simp [hd]
  · intro m v hv
    exact ⟨repDebug_entry v hv m, by simp⟩

/-- Claim C7, witness: the theorem applied to the scalar field `mutex` with
two identical reports, and to `debug` with two reports of the same line. -/
theorem c7_witness :
    mfind "mutex" ((addMetadata 1 "mutex" (.vStr "val")
      ((addMetadata 1 "mutex" (.vStr "val") ⟨[], []⟩).1)).1).metadata
      = some (.strs ["val"]) ∧
    mfind "debug" (repDebug "d" 2).metadata
      = some (.strs (List.replicate 2 "d")) ∧
    (List.replicate 2 "d").count "d" = 2 :=
  ⟨c7_scalar_dedup_debug_appends.1 0 "mutex" "val" (by decide) (by decide)
      (by decide),
    (c7_scalar_dedup_debug_appends.2 1 "d" (by decide)).1,
    (c7_scalar_dedup_debug_appends.2 1 "d" (by decide)).2⟩

theorem rseq_unit (r : RRes) : rseq r (fun st => (st, none)) = r := by
  rcases r with ⟨st, _ | e⟩ <;> rfl

theorem rseq_eq (r : RRes) (f : RState → RRes) (hr : r.2 = none) :
    rseq r f = f r.1 := by
  rcases r with ⟨st, _ | e⟩
  · rfl
  · simp at hr

theorem addMetadata_proxy_structure (n : Nat) (u p h : String) (st : RState)
    (hu : ¬ u = "") (hfind : mfind "proxy" st.metadata = none) :
    addMetadata (n + 1) "proxy" (.vList [u, p, h]) st =
      ((addMetadata n "proxy_socketaddress" (.vList [h, "", ""])
        ((addMetadata n "credential" (.vList [u, p])
          { st with metadata := dictSet "proxy" (.tups [[u, p, h, "", ""]]) st.metadata }).1)).1,
        none) := by
  simp only [addMetadata, convertToUnicode]
  rw [if_neg (by simp [isEmptyValue, hu] :
    ¬ isEmptyValue (Value.vList [u, p, h]) = true)]
  rw [(by decide : schemaType "proxy" = some FType.listofstringtuples)]
  simp [addMetadataListofstringtuples, iterStrings, tupStore, tupCascade,
    subfieldMap, hfind, rseq, convertToUnicode, List.append_eq]
  rcases hc : addMetadata n "credential" (Value.vList [u, p])
    { st with metadata := dictSet "proxy" (.tups [[u, p, h, "", ""]]) st.metadata }
    with ⟨stc, excc⟩
  have hcn : excc = none := by
    have h2 := addMetadata_no_raise n "credential" (Value.vList [u, p])
      { st with metadata := dictSet "proxy" (.tups [[u, p, h, "", ""]]) st.metadata }
      (by decide)
    rw [hc] at h2
    exact h2
  subst hcn
  rcases hp : addMetadata n "proxy_socketaddress" (Value.vList [h, "", ""]) stc
    with ⟨stp, excp⟩
  have hpn : excp = none := by
    have h2 := addMetadata_no_raise n "proxy_socketaddress"
      (Value.vList [h, "", ""]) stc (by decide)
    rw [hp] at h2
    exact h2
  subst hpn
  simp [hp]

theorem addMetadata_psa_structure (n : Nat) (h : String) (st : RState)
    (hh : ¬ h = "") (hfind : mfind "proxy_socketaddress" st.metadata = none) :
    addMetadata (n + 1) "proxy_socketaddress" (.vList [h, "", ""]) st =
      ((addMetadata n "proxy_address" (.vStr h)
        ((addMetadata n "socketaddress" (.vList [h, "", ""])
          { st with metadata := dictSet "proxy_socketaddress" (.tups [[h, "", ""]]) st.metadata }).1)).1,
        none) := by
  simp only [addMetadata, convertToUnicode]
  rw [if_neg (by simp [isEmptyValue, hh] :
    ¬ isEmptyValue (Value.vList [h, "", ""]) = true)]
  rw [(by decide :
    schemaType "proxy_socketaddress" = some FType.listofstringtuples)]
  simp [addMetadataListofstringtuples, iterStrings, tupStore, tupCascade,
    subfieldMap, hfind, rseq, convertToUnicode, List.append_eq]
  rcases hc : addMetadata n "socketaddress" (Value.vList [h, "", ""])
    { st with metadata := dictSet "proxy_socketaddress" (.tups [[h, "", ""]]) st.metadata }
    with ⟨stc, excc⟩
  have hcn : excc = none := by
    have h2 := addMetadata_no_raise n "socketaddress" (Value.vList [h, "", ""])
      { st with metadata := dictSet "proxy_socketaddress" (.tups [[h, "", ""]]) st.metadata }
      (by decide)
    rw [hc] at h2
    exact h2
  subst hcn
  rcases hpa : addMetadata n "proxy_address" (Value.vStr h) stc
    with ⟨stp, excp⟩
  have hpn : excp = none := by
    have h2 := addMetadata_no_raise n "proxy_address" (Value.vStr h) stc
      (by decide)
    rw [hpa] at h2
    exact h2
  subst hpn
  simp [hpa]

theorem addMetadata_pa_structure (n : Nat) (v : String) (st : RState)
    (hv : ¬ v = "") (hfind : mfind "proxy_address" st.metadata = none) :
    addMetadata (n + 1) "proxy_address" (.vStr v) st =
      ((addMetadata n "address" (.vStr v)
        { st with metadata := dictSet "proxy_address" (.strs [v]) st.metadata }).1,
        none) := by
  simp only [addMetadata, convertToUnicode]
  rw [if_neg (by simp [isEmptyValue, hv] :
    ¬ isEmptyValue (Value.vStr v) = true)]
  rw [(by decide : schemaType "proxy_address" = some FType.listofstrings)]
  simp [addMetadataListofstrings, losStore, losCascade, hfind, rseq,
    convertToUnicode, hv]
  rcases ha : addMetadata n "address" (Value.vStr v)
    { st with metadata := dictSet "proxy_address" (.strs [v]) st.metadata }
    with ⟨sta, exca⟩
  have han : exca = none := by
    have h2 := addMetadata_no_raise n "address" (Value.vStr v)
      { st with metadata := dictSet "proxy_address" (.strs [v]) st.metadata }
      (by decide)
    rw [ha] at h2
    exact h2
  subst han
  simp [ha]

theorem fst_pair (a : RState) (b : Option Exc) : ((a, b) : RRes).1 = a := rfl

theorem mfind_addMetadata_keeps (n : Nat) (key : String) (v : Value)
    (st : RState) (k : String) (hk : k ∉ touch key) :
    mfind k ((addMetadata n key v st).1).metadata = mfind k st.metadata :=
  addMetadata_keeps n key v st k hk

/-- Claim C2 (amended): reporting a `proxy` tuple of length 3
`(user, pass, host)` pads it to length 5 before storage and derives
`credential = (user, pass)`; because the padded tuple leaves three address
components `(host, "", "")`, the proxy rule adds
`proxy_socketaddress = (host, "", "")` (not `proxy_address` directly), and
the `proxy_socketaddress` rule in turn derives `proxy_address = host`. -/
theorem c2_proxy_triple (n : Nat) (u p h : String)
    (hu : u ≠ "") (hp : p ≠ "") (hh : h ≠ "") :
    mfind "proxy"
      ((addMetadata (n + 3) "proxy" (.vList [u, p, h]) ⟨[], []⟩).1).metadata
      = some (.tups [[u, p, h, "", ""]]) ∧
    mfind "credential"
      ((addMetadata (n + 3) "proxy" (.vList [u, p, h]) ⟨[], []⟩).1).metadata
      = some (.tups [[u, p]]) ∧
    mfind "proxy_socketaddress"
      ((addMetadata (n + 3) "proxy" (.vList [u, p, h]) ⟨[], []⟩).1).metadata
      = some (.tups [[h, "", ""]]) ∧
    mfind "proxy_address"
      ((addMetadata (n + 3) "proxy" (.vList [u, p, h]) ⟨[], []⟩).1).metadata
      = some (.strs [h]) := by
  rw [show (n + 3) = (n + 2) + 1 from rfl,
    addMetadata_proxy_structure (n + 2) u p h ⟨[], []⟩ hu rfl,
    show (n + 2) = (n + 1) + 1 from rfl]
  simp only [fst_pair,
    show ({ metadata := [], log := [] } : RState).metadata = [] from rfl,
    show ({ metadata := [], log := [] } : RState).log = [] from rfl,
    show dictSet "proxy" (MVal.tups [[u, p, h, "", ""]]) [] =
      [("proxy", MVal.tups [[u, p, h, "", ""]])] from rfl]
  set stA : RState := ⟨[("proxy", .tups [[u, p, h, "", ""]])], []⟩ with hstA
  set C1 : RState :=
    (addMetadata (n + 1 + 1) "credential" (Value.vList [u, p]) stA).1 with hC1
  have hcredC1 : mfind "credential" C1.metadata = some (.tups [[u, p]]) := by
    rw [hC1, addMetadata_tup_self (n + 1) "credential" [u, p] stA (by decide)
      (by simp [hu]) (by decide) [u, p] rfl]
    simp [hstA, mfind]
  have hproxyC1 : mfind "proxy" C1.metadata =
      some (.tups [[u, p, h, "", ""]]) := by
    rw [hC1, mfind_addMetadata_keeps (n + 1 + 1) "credential" _ stA "proxy"
      (by decide)]
    simp [hstA, mfind]
  have hpsaC1 : mfind "proxy_socketaddress" C1.metadata = none := by
    rw [hC1, mfind_addMetadata_keeps (n + 1 + 1) "credential" _ stA
      "proxy_socketaddress" (by decide)]
    simp [hstA, mfind]
  have hpaC1 : mfind "proxy_address" C1.metadata = none := by
    rw [hC1, mfind_addMetadata_keeps (n + 1 + 1) "credential" _ stA
      "proxy_address" (by decide)]
    simp [hstA, mfind]
  refine ⟨?_, ?_, ?_, ?_⟩
  · rw [mfind_addMetadata_keeps (n + 1 + 1) "proxy_socketaddress" _ C1 "proxy"
      (by decide)]
    exact hproxyC1
  · rw [mfind_addMetadata_keeps (n + 1 + 1) "proxy_socketaddress" _ C1
      "credential" (by decide)]
    exact hcredC1
  · rw [addMetadata_tup_self (n + 1) "proxy_socketaddress" [h, "", ""] C1
      (by decide) (by simp [hh]) (by decide) [h, "", ""] rfl, hpsaC1]
  · rw [addMetadata_psa_structure (n + 1) h C1 hh hpsaC1]
    simp only [fst_pair]
    rw [addMetadata_scalar_self n "proxy_address" h _ (by decide) hh
      (by decide)]
    have hpaSA : mfind "proxy_address"
        ((addMetadata (n + 1) "socketaddress" (.vList [h, "", ""])
          { C1 with metadata := dictSet "proxy_socketaddress" (.tups [[h, "", ""]]) C1.metadata }).1).metadata
        = none := by
      rw [mfind_addMetadata_keeps (n + 1) "socketaddress" _ _ "proxy_address"
        (by decide)]
      show mfind "proxy_address"
        (dictSet "proxy_socketaddress" (.tups [[h, "", ""]]) C1.metadata) = none
      rw [mfind_dictSet_ne "proxy_address" "proxy_socketaddress" _ _
        (by decide)]
      exact hpaC1
    rw [hpaSA]

/-- Claim C2, witness: the amended theorem applied to a concrete
`(user, pass, host)` triple. -/
theorem c2_witness :
    mfind "proxy"
      ((addMetadata 3 "proxy" (.vList ["user", "pass", "host"]) ⟨[], []⟩).1).metadata
      = some (.tups [["user", "pass", "host", "", ""]]) ∧
    mfind "credential"
      ((addMetadata 3 "proxy" (.vList ["user", "pass", "host"]) ⟨[], []⟩).1).metadata
      = some (.tups [["user", "pass"]]) ∧
    mfind "proxy_socketaddress"
      ((addMetadata 3 "proxy" (.vList ["user", "pass", "host"]) ⟨[], []⟩).1).metadata
      = some (.tups [["host", "", ""]]) ∧
    mfind "proxy_address"
      ((addMetadata 3 "proxy" (.vList ["user", "pass", "host"]) ⟨[], []⟩).1).metadata
      = some (.strs ["host"]) :=
  c2_proxy_triple 0 "user" "pass" "host" (by decide) (by decide) (by decide)

/-- Claim C10: the padding to the declared minimum length happens before
the duplicate-membership check, so reporting the short `proxy` tuple
`(u, p, h)` and then its explicitly padded 5-tuple stores exactly one
tuple entry, and likewise for `rsa_private_key` padded to 8. -/
theorem c10_padding_dedup (n : Nat) (u p h a b c : String)
    (hu : u ≠ "") (ha : a ≠ "") :
    mfind "proxy" ((addMetadata (n + 1) "proxy" (.vList [u, p, h, "", ""])
      ((addMetadata (n + 1) "proxy" (.vList [u, p, h]) ⟨[], []⟩).1)).1).metadata
      = some (.tups [[u, p, h, "", ""]]) ∧
    mfind "rsa_private_key"
      ((addMetadata (n + 1) "rsa_private_key"
        (.vList [a, b, c, "", "", "", "", ""])
        ((addMetadata (n + 1) "rsa_private_key" (.vList [a, b, c])
          ⟨[], []⟩).1)).1).metadata
      = some (.tups [[a, b, c, "", "", "", "", ""]]) := by
  constructor
  · have h1 : mfind "proxy"
        ((addMetadata (n + 1) "proxy" (.vList [u, p, h]) ⟨[], []⟩).1).metadata
        = some (.tups [[u, p, h, "", ""]]) := by
      rw [addMetadata_tup_self n "proxy" [u, p, h] ⟨[], []⟩ (by decide)
        (by simp [hu]) (by decide) [u, p, h, "", ""] rfl]
      simp [mfind]
    rw [addMetadata_tup_self n "proxy" [u, p, h, "", ""] _ (by decide)
      (by simp [hu]) (by decide) [u, p, h, "", ""] rfl, h1]
    simp
  · have h1 : mfind "rsa_private_key"
        ((addMetadata (n + 1) "rsa_private_key" (.vList [a, b, c])
          ⟨[], []⟩).1).metadata
        = some (.tups [[a, b, c, "", "", "", "", ""]]) := by
      rw [addMetadata_tup_self n "rsa_private_key" [a, b, c] ⟨[], []⟩
        (by decide) (by simp [ha]) (by decide)
        [a, b, c, "", "", "", "", ""] rfl]
      simp [mfind]
    rw [addMetadata_tup_self n "rsa_private_key" [a, b, c, "", "", "", "", ""]
      _ (by decide) (by simp [ha]) (by decide)
      [a, b, c, "", "", "", "", ""] rfl, h1]
    simp

/-- Claim C10, witness: the theorem applied at concrete components. -/
theorem c10_witness :
    mfind "proxy" ((addMetadata 1 "proxy"
      (.vList ["u", "p", "h", "", ""])
      ((addMetadata 1 "proxy" (.vList ["u", "p", "h"]) ⟨[], []⟩).1)).1).metadata
      = some (.tups [["u", "p", "h", "", ""]]) ∧
    mfind "rsa_private_key"
      ((addMetadata 1 "rsa_private_key"
        (.vList ["m", "e", "d", "", "", "", "", ""])
        ((addMetadata 1 "rsa_private_key" (.vList ["m", "e", "d"])
          ⟨[], []⟩).1)).1).metadata
      = some (.tups [["m", "e", "d", "", "", "", "", ""]]) :=
  c10_padding_dedup 0 "u" "p" "h" "m" "e" "d" (by decide) (by decide)

/-- A successful lookup names an entry of the store. -/
theorem mem_of_mfind (k : String) (v : MVal) (md : Store)
    (h : mfind k md = some v) : (k, v) ∈ md := by
  induction md with
  | nil => simp [mfind] at h
  | cons p t ih =>
    rcases p with ⟨k1, v1⟩
    rw [mfind] at h
    split at h
    · next hk =>
      subst hk
      simp only [Option.some.injEq] at h
      subst h
      exact List.mem_cons_self _ _
    · exact List.mem_cons_of_mem _ (ih h)

/-- A lookup fails exactly when the key is absent. -/
theorem mfind_none (k : String) (md : Store) :
    mfind k md = none ↔ ¬ k ∈ md.map Prod.fst := by
  induction md with
  | nil => simp [mfind]
  | cons p t ih =>
    rcases p with ⟨k1, v1⟩
    rw [mfind]
    by_cases hk : k1 = k
    · simp [hk]
    · simp [hk, ih, Ne.symm hk]

/-- With no duplicate keys, any entry of the store is what lookup finds. -/
theorem mfind_of_mem_nodup (k : String) (v : MVal) (md : Store)
    (hm : (k, v) ∈ md) (hnd : (md.map Prod.fst).Nodup) : mfind k md = some v := by
  induction md with
  | nil => cases hm
  | cons p t ih =>
    rcases p with ⟨k1, v1⟩
    rw [mfind]
    rcases List.mem_cons.1 hm with h | h
    · cases h
      rw [if_pos rfl]
    · have hk : k1 ≠ k := by
        rintro rfl
        have hmem : k1 ∈ t.map Prod.fst := List.mem_map.2 ⟨(k1, v), h, rfl⟩
        exact (List.nodup_cons.1 hnd).1 hmem
      rw [if_neg hk]
      exact ih h (List.nodup_cons.1 hnd).2

/-- Lookup is invariant under permuting a duplicate-free store. -/
theorem mfind_perm (md md1 : Store) (hperm : md.Perm md1)
    (hnd : (md.map Prod.fst).Nodup) (k : String) : mfind k md1 = mfind k md := by
  have hnd2 : (md1.map Prod.fst).Nodup := ((hperm.map Prod.fst).nodup_iff).1 hnd
  cases hf : mfind k md with
  | some v =>
    exact mfind_of_mem_nodup k v md1 (hperm.mem_iff.1 (mem_of_mfind k v md hf)) hnd2
  | none =>
    rw [mfind_none] at hf ⊢
    intro hmem
    exact hf (((hperm.map Prod.fst).mem_iff).2 hmem)

/-- The fixed-order field loops depend only on lookups. -/
theorem renderFields_congr (md md1 : Store)
    (h : ∀ k, mfind k md1 = mfind k md) :
    ∀ l : List String, renderFields md1 l = renderFields md l := by
  intro l
  induction l with
  | nil => rfl
  | cons k rest ih => rw [renderFields, renderFields, h, ih]

/-- Every section of the report other than the leftover loop depends only
on lookups. -/
theorem sections_congr (md md1 : Store)
    (h : ∀ k, mfind k md1 = mfind k md) :
    infoSection md1 = infoSection md ∧ stdSection md1 = stdSection md ∧
    otherSection md1 = otherSection md ∧ debugSection md1 = debugSection md ∧
    outputfileSection md1 = outputfileSection md := by
  refine ⟨?_, ?_, ?_, ?_, ?_⟩
  · rw [infoSection, infoSection, h, renderFields_congr md md1 h]
  · rw [stdSection, stdSection, renderFields_congr md md1 h]
  · rw [otherSection, otherSection, h]
  · rw [debugSection, debugSection, h]
  · rw [outputfileSection, outputfileSection, h]

/-- Claim C8: however the fields were inserted into the store (any
permutation `md1` of a duplicate-free store `md`), the rendered report is
the file-information section, then the standard-metadata section, then the
leftover schema-known fields (as some arrangement of the same per-field
chunks), then the other, debug, output-files and errors sections, in that
order, each section identical to its canonical-store rendering. -/
theorem c8_section_order (md md1 : Store) (errors : List String)
    (hperm : md.Perm md1) (hnd : (md.map Prod.fst).Nodup) :
    ∃ L : List String, L.Perm (leftoverChunks md) ∧
      getOutputText md1 errors =
        infoSection md ++ "\n----Standard Metadata----\n\n" ++ stdSection md ++
          String.join L ++ otherSection md ++ debugSection md ++
          outputfileSection md ++ errorsSection errors := by
  have h := mfind_perm md md1 hperm hnd
  obtain ⟨h1, h2, h3, h4, h5⟩ := sections_congr md md1 h
  refine ⟨leftoverChunks md1, ?_, ?_⟩
  · exact (hperm.filterMap leftoverChunk).symm
  · rw [getOutputText, h1, h2, h3, h4, h5]

/-- Claim C8, witness: the theorem applied to a concrete two-field store
and its reversal. -/
theorem c8_witness :
    ([("debug", MVal.strs ["msg"]), ("c2_address", MVal.strs ["bad.com"])]
        : Store).Perm
      [("c2_address", MVal.strs ["bad.com"]), ("debug", MVal.strs ["msg"])] ∧
    ((([("debug", MVal.strs ["msg"]), ("c2_address", MVal.strs ["bad.com"])]
        : Store)).map Prod.fst).Nodup ∧
    ∃ L : List String,
      L.Perm (leftoverChunks
        [("debug", MVal.strs ["msg"]), ("c2_address", MVal.strs ["bad.com"])]) ∧
      getOutputText
          [("c2_address", MVal.strs ["bad.com"]), ("debug", MVal.strs ["msg"])]
          ["oops"] =
        infoSection
            [("debug", MVal.strs ["msg"]), ("c2_address", MVal.strs ["bad.com"])] ++
          "\n----Standard Metadata----\n\n" ++
          stdSection
            [("debug", MVal.strs ["msg"]), ("c2_address", MVal.strs ["bad.com"])] ++
          String.join L ++
          otherSection
            [("debug", MVal.strs ["msg"]), ("c2_address", MVal.strs ["bad.com"])] ++
          debugSection
            [("debug", MVal.strs ["msg"]), ("c2_address", MVal.strs ["bad.com"])] ++
          outputfileSection
            [("debug", MVal.strs ["msg"]), ("c2_address", MVal.strs ["bad.com"])] ++
          errorsSection ["oops"] :=
  ⟨by decide, by decide,
    c8_section_order
      [("debug", MVal.strs ["msg"]), ("c2_address", MVal.strs ["bad.com"])]
      [("c2_address", MVal.strs ["bad.com"]), ("debug", MVal.strs ["msg"])]
      ["oops"] (by decide) (by decide)⟩
